import Mathlib

/-!
# Verification of the declaration-lowering / type-mapping pipeline

Shallow embedding of the core of a TypeScript-declaration-to-Rust-extern-bindings
compiler (`src/ty.rs`, `src/util.rs`, `src/decl.rs`, `src/module.rs`, `src/func.rs`,
`src/pat.rs`, `src/wasm.rs`).  Rust `syn::Type` values are modelled by the inductive
`Ty`; the TypeScript type grammar (`swc_ecma_ast::TsType`) by `TsType`; the passes
(`ts_type_to_type`, `wasm_abi_set`, `WasmAbify`, `ByeByeGenerics`, `BindingsCleaner`,
`ModuleBindingsCleaner`, `import_prefix_to_idents`, declaration lowering and module
composition) are translated function by function.  Rust code that panics
(`todo!` / `unwrap` / `assert!`) is modelled with `Option`-returning functions
(`none` = processing of that declaration fails); `eprintln!` diagnostics are
modelled as an explicit `List String` channel.
-/

namespace WBTD

mutual
/-- Model of `syn::Type` restricted to the shapes this program constructs and
inspects.  A path type carries its leading-colon flag and its segments; each
segment is an identifier together with its angle-bracketed generic type
arguments (`Tys.nil` models `PathArguments::None`, which is how the program
always builds argument-free segments).  `dynFn inputs` models the trait object
`dyn Fn(inputs)`; `slice` models `[T]`; `paren` models `(T)`; `tup` models
tuple types including the unit type `()`. -/
inductive Ty where
  | path (lc : Bool) (segs : Segs)
  | ref (elem : Ty)
  | dynFn (inputs : Tys)
  | slice (elem : Ty)
  | tup (elems : Tys)
  | paren (elem : Ty)

/-- A list of path segments (`syn::PathSegment`), first-order so that
equality is decidable. -/
inductive Segs where
  | nil
  | cons (name : String) (args : Tys) (rest : Segs)

/-- A list of types, first-order so that equality is decidable. -/
inductive Tys where
  | nil
  | cons (head : Ty) (tail : Tys)
end

deriving instance DecidableEq for Ty, Segs, Tys

/-- Convert a `Tys` into an ordinary list. -/
def Tys.toList : Tys → List Ty
  | .nil => []
  | .cons t r => t :: r.toList

/-- Build a `Tys` from an ordinary list. -/
def Tys.ofList : List Ty → Tys
  | [] => .nil
  | t :: r => .cons t (Tys.ofList r)

/-- Number of path segments. -/
def Segs.length : Segs → Nat
  | .nil => 0
  | .cons _ _ r => r.length + 1

/-- `::wasm_bindgen::JsValue`, the `js_value()` helper of `wasm.rs` (the
"DynamicValue" of the specification). -/
def jsValue : Ty := .path true (.cons "wasm_bindgen" .nil (.cons "JsValue" .nil .nil))

/-- `::core::primitive::<n>`. -/
def primTy (n : String) : Ty :=
  .path true (.cons "core" .nil (.cons "primitive" .nil (.cons n .nil .nil)))

/-- `::std::string::String`. -/
def stringTy : Ty :=
  .path true (.cons "std" .nil (.cons "string" .nil (.cons "String" .nil .nil)))

/-- The unit type `()`. -/
def unitTy : Ty := .tup .nil

/-- `::std::option::Option<t>`. -/
def optionTy (t : Ty) : Ty :=
  .path true (.cons "std" .nil (.cons "option" .nil (.cons "Option" (.cons t .nil) .nil)))

/-- `::std::boxed::Box<[t]>`. -/
def boxedSliceTy (t : Ty) : Ty :=
  .path true (.cons "std" .nil (.cons "boxed" .nil (.cons "Box" (.cons (.slice t) .nil) .nil)))

/-- A bare single-segment type path such as `Foo` (what `parse_str::<Type>`
yields on a plain identifier). -/
def bareTy (n : String) : Ty := .path false (.cons n .nil .nil)


/-! ## Known-type catalogs (`util.rs`, `lazy_static!` block)

The three static name sets `KNOWN_STRING_TYPES`, `KNOWN_WEB_SYS_TYPES` and
`KNOWN_JS_SYS_TYPES`, transcribed verbatim. -/

def knownStringTypes : List String := [
  "AlignSetting", "AnimationPlayState", "AnimationReplaceState", "AppendMode", "AttestationConveyancePreference", "AudioContextLatencyCategory",
  "AudioContextState", "AuthenticatorAttachment", "AuthenticatorTransport", "AutoKeyword", "AutomationRate", "BinaryType",
  "BiquadFilterType", "CanPlayTypeResult", "CanvasDirection", "CanvasFillRule", "CanvasFontKerning", "CanvasFontStretch",
  "CanvasFontVariantCaps", "CanvasLineCap", "CanvasLineJoin", "CanvasTextAlign", "CanvasTextBaseline", "CanvasTextRendering",
  "ChannelCountMode", "ChannelInterpretation", "ClientTypes", "ColorGamut", "ColorSpaceConversion", "CompositeOperation",
  "CompositeOperationOrAuto", "CredentialMediationRequirement", "DOMParserSupportedType", "DirectionSetting", "DisplayCaptureSurfaceType", "DistanceModelType",
  "DocumentReadyState", "DocumentVisibilityState", "EndOfStreamError", "EndingType", "FileSystemHandleKind", "FillMode",
  "FontFaceLoadStatus", "FontFaceSetLoadStatus", "FullscreenNavigationUI", "GamepadHapticActuatorType", "GamepadMappingType", "GlobalCompositeOperation",
  "HdrMetadataType", "IDBCursorDirection", "IDBRequestReadyState", "IDBTransactionDurability", "IDBTransactionMode", "ImageOrientation",
  "ImageSmoothingQuality", "IterationCompositeOperation", "KeyFormat", "KeyType", "KeyUsage", "LineAlignSetting",
  "LockMode", "MediaDecodingType", "MediaDeviceKind", "MediaEncodingType", "MediaKeyMessageType", "MediaKeySessionClosedReason",
  "MediaKeySessionType", "MediaKeyStatus", "MediaKeysRequirement", "MediaSessionAction", "MediaSessionPlaybackState", "MediaStreamTrackState",
  "NavigationTimingType", "NotificationDirection", "NotificationPermission", "OrientationLockType", "OrientationType", "OscillatorType",
  "OverSampleType", "PanningModelType", "PaymentComplete", "PermissionName", "PermissionState", "PlaybackDirection",
  "PositionAlignSetting", "PredefinedColorSpace", "PremultiplyAlpha", "PresentationStyle", "PublicKeyCredentialType", "PushEncryptionKeyName",
  "RTCBundlePolicy", "RTCDataChannelState", "RTCDegradationPreference", "RTCDtlsTransportState", "RTCEncodedVideoFrameType", "RTCErrorDetailType",
  "RTCIceCandidateType", "RTCIceComponent", "RTCIceConnectionState", "RTCIceCredentialType", "RTCIceGathererState", "RTCIceGatheringState",
  "RTCIceProtocol", "RTCIceTcpCandidateType", "RTCIceTransportPolicy", "RTCIceTransportState", "RTCPeerConnectionState", "RTCPriorityType",
  "RTCRtcpMuxPolicy", "RTCRtpTransceiverDirection", "RTCSctpTransportState", "RTCSdpType", "RTCSignalingState", "RTCStatsIceCandidatePairState",
  "RTCStatsType", "ReadyState", "RecordingState", "ReferrerPolicy", "RemotePlaybackState", "RequestCache",
  "RequestCredentials", "RequestDestination", "RequestMode", "RequestRedirect", "ResidentKeyRequirement", "ResizeObserverBoxOptions",
  "ResizeQuality", "ResponseType", "ScrollBehavior", "ScrollLogicalPosition", "ScrollRestoration", "ScrollSetting",
  "SecurityPolicyViolationEventDisposition", "SelectionMode", "ServiceWorkerState", "ServiceWorkerUpdateViaCache", "ShadowRootMode", "SlotAssignmentMode",
  "SpeechSynthesisErrorCode", "TextTrackKind", "TextTrackMode", "TouchType", "TransferFunction", "UserVerificationRequirement",
  "VideoColorPrimaries", "VideoFacingModeEnum", "VideoMatrixCoefficients", "VideoTransferCharacteristics", "WebGLPowerPreference", "WorkerType",
  "XMLHttpRequestResponseType"
]

def knownWebSysTypes : List String := [
  "AbortController", "AbortSignal", "AddEventListenerOptions", "AesCbcParams", "AesCtrParams", "AesDerivedKeyParams",
  "AesGcmParams", "AesKeyAlgorithm", "AesKeyGenParams", "Algorithm", "AllowedBluetoothDevice", "AllowedUsbDevice",
  "AnalyserNode", "AnalyserOptions", "AngleInstancedArrays", "Animation", "AnimationEffect", "AnimationEvent",
  "AnimationEventInit", "AnimationPlaybackEvent", "AnimationPlaybackEventInit", "AnimationPropertyDetails", "AnimationPropertyValueDetails", "AnimationTimeline",
  "AssignedNodesOptions", "Attr", "AttributeNameValue", "AudioBuffer", "AudioBufferOptions", "AudioBufferSourceNode",
  "AudioBufferSourceOptions", "AudioConfiguration", "AudioContext", "AudioContextOptions", "AudioData", "AudioDataCopyToOptions",
  "AudioDataInit", "AudioDecoder", "AudioDecoderConfig", "AudioDecoderInit", "AudioDecoderSupport", "AudioDestinationNode",
  "AudioEncoder", "AudioEncoderConfig", "AudioEncoderInit", "AudioEncoderSupport", "AudioListener", "AudioNode",
  "AudioNodeOptions", "AudioParam", "AudioParamMap", "AudioProcessingEvent", "AudioScheduledSourceNode", "AudioStreamTrack",
  "AudioTrack", "AudioTrackList", "AudioWorklet", "AudioWorkletGlobalScope", "AudioWorkletNode", "AudioWorkletNodeOptions",
  "AudioWorkletProcessor", "AuthenticationExtensionsClientInputs", "AuthenticationExtensionsClientOutputs", "AuthenticatorAssertionResponse", "AuthenticatorAttestationResponse", "AuthenticatorResponse",
  "AuthenticatorSelectionCriteria", "AutocompleteInfo", "BarProp", "BaseAudioContext", "BaseComputedKeyframe", "BaseKeyframe",
  "BasePropertyIndexedKeyframe", "BasicCardRequest", "BasicCardResponse", "BatteryManager", "BeforeUnloadEvent", "BiquadFilterNode",
  "BiquadFilterOptions", "Blob", "BlobEvent", "BlobEventInit", "BlobPropertyBag", "BlockParsingOptions",
  "Bluetooth", "BluetoothAdvertisingEvent", "BluetoothAdvertisingEventInit", "BluetoothCharacteristicProperties", "BluetoothDataFilterInit", "BluetoothDevice",
  "BluetoothLeScanFilterInit", "BluetoothManufacturerDataMap", "BluetoothPermissionDescriptor", "BluetoothPermissionResult", "BluetoothPermissionStorage", "BluetoothRemoteGattCharacteristic",
  "BluetoothRemoteGattDescriptor", "BluetoothRemoteGattServer", "BluetoothRemoteGattService", "BluetoothServiceDataMap", "BluetoothUuid", "BoxQuadOptions",
  "BroadcastChannel", "BrowserElementDownloadOptions", "BrowserElementExecuteScriptOptions", "BrowserFeedWriter", "ByteLengthQueuingStrategy", "Cache",
  "CacheBatchOperation", "CacheQueryOptions", "CacheStorage", "CanvasCaptureMediaStream", "CanvasGradient", "CanvasPattern",
  "CanvasRenderingContext2d", "CaretPosition", "CaretStateChangedEventInit", "CdataSection", "ChannelMergerNode", "ChannelMergerOptions",
  "ChannelPixelLayout", "ChannelSplitterNode", "ChannelSplitterOptions", "CharacterData", "CheckerboardReport", "CheckerboardReportService",
  "ChromeFilePropertyBag", "ChromeWorker", "Client", "ClientQueryOptions", "ClientRectsAndTexts", "Clients",
  "Clipboard", "ClipboardEvent", "ClipboardEventInit", "ClipboardItem", "ClipboardItemOptions", "ClipboardPermissionDescriptor",
  "CloseEvent", "CloseEventInit", "CollectedClientData", "Comment", "CompositionEvent", "CompositionEventInit",
  "ComputedEffectTiming", "ConnStatusDict", "ConsoleCounter", "ConsoleCounterError", "ConsoleEvent", "ConsoleInstance",
  "ConsoleInstanceOptions", "ConsoleProfileEvent", "ConsoleStackEntry", "ConsoleTimerError", "ConsoleTimerLogOrEnd", "ConsoleTimerStart",
  "ConstantSourceNode", "ConstantSourceOptions", "ConstrainBooleanParameters", "ConstrainDomStringParameters", "ConstrainDoubleRange", "ConstrainLongRange",
  "ContextAttributes2d", "ConvertCoordinateOptions", "ConvolverNode", "ConvolverOptions", "Coordinates", "CountQueuingStrategy",
  "Credential", "CredentialCreationOptions", "CredentialRequestOptions", "CredentialsContainer", "Crypto", "CryptoKey",
  "CryptoKeyPair", "Csp", "CspPolicies", "CspReport", "CspReportProperties", "CssAnimation",
  "CssConditionRule", "CssCounterStyleRule", "CssFontFaceRule", "CssFontFeatureValuesRule", "CssGroupingRule", "CssImportRule",
  "CssKeyframeRule", "CssKeyframesRule", "CssMediaRule", "CssNamespaceRule", "CssPageRule", "CssPseudoElement",
  "CssRule", "CssRuleList", "CssStyleDeclaration", "CssStyleRule", "CssStyleSheet", "CssSupportsRule",
  "CssTransition", "CustomElementRegistry", "CustomEvent", "CustomEventInit", "DataTransfer", "DataTransferItem",
  "DataTransferItemList", "DateTimeValue", "DecoderDoctorNotification", "DedicatedWorkerGlobalScope", "DelayNode", "DelayOptions",
  "DeviceAcceleration", "DeviceAccelerationInit", "DeviceLightEvent", "DeviceLightEventInit", "DeviceMotionEvent", "DeviceMotionEventInit",
  "DeviceOrientationEvent", "DeviceOrientationEventInit", "DeviceProximityEvent", "DeviceProximityEventInit", "DeviceRotationRate", "DeviceRotationRateInit",
  "DhKeyDeriveParams", "Directory", "DisplayMediaStreamConstraints", "DisplayNameOptions", "DisplayNameResult", "DnsCacheDict",
  "DnsCacheEntry", "DnsLookupDict", "Document", "DocumentFragment", "DocumentTimeline", "DocumentTimelineOptions",
  "DocumentType", "DomError", "DomException", "DomImplementation", "DomMatrix", "DomMatrixReadOnly",
  "DomParser", "DomPoint", "DomPointInit", "DomPointReadOnly", "DomQuad", "DomQuadInit",
  "DomQuadJson", "DomRect", "DomRectInit", "DomRectList", "DomRectReadOnly", "DomRequest",
  "DomStringList", "DomStringMap", "DomTokenList", "DomWindowResizeEventDetail", "DragEvent", "DragEventInit",
  "DynamicsCompressorNode", "DynamicsCompressorOptions", "EcKeyAlgorithm", "EcKeyGenParams", "EcKeyImportParams", "EcdhKeyDeriveParams",
  "EcdsaParams", "EffectTiming", "Element", "ElementCreationOptions", "ElementDefinitionOptions", "EncodedAudioChunk",
  "EncodedAudioChunkInit", "EncodedAudioChunkMetadata", "EncodedVideoChunk", "EncodedVideoChunkInit", "EncodedVideoChunkMetadata", "ErrorCallback",
  "ErrorEvent", "ErrorEventInit", "Event", "EventInit", "EventListener", "EventListenerOptions",
  "EventModifierInit", "EventSource", "EventSourceInit", "EventTarget", "Exception", "ExtBlendMinmax",
  "ExtColorBufferFloat", "ExtColorBufferHalfFloat", "ExtDisjointTimerQuery", "ExtFragDepth", "ExtSRgb", "ExtShaderTextureLod",
  "ExtTextureFilterAnisotropic", "ExtendableEvent", "ExtendableEventInit", "ExtendableMessageEvent", "ExtendableMessageEventInit", "External",
  "FakePluginMimeEntry", "FakePluginTagInit", "FetchEvent", "FetchEventInit", "FetchObserver", "FetchReadableStreamReadDataArray",
  "FetchReadableStreamReadDataDone", "File", "FileCallback", "FileList", "FilePropertyBag", "FileReader",
  "FileReaderSync", "FileSystem", "FileSystemDirectoryEntry", "FileSystemDirectoryReader", "FileSystemEntriesCallback", "FileSystemEntry",
  "FileSystemEntryCallback", "FileSystemFileEntry", "FileSystemFlags", "FocusEvent", "FocusEventInit", "FontFace",
  "FontFaceDescriptors", "FontFaceSet", "FontFaceSetIterator", "FontFaceSetIteratorResult", "FontFaceSetLoadEvent", "FontFaceSetLoadEventInit",
  "FormData", "FuzzingFunctions", "GainNode", "GainOptions", "Gamepad", "GamepadAxisMoveEvent",
  "GamepadAxisMoveEventInit", "GamepadButton", "GamepadButtonEvent", "GamepadButtonEventInit", "GamepadEvent", "GamepadEventInit",
  "GamepadHapticActuator", "GamepadPose", "GamepadServiceTest", "Geolocation", "GetNotificationOptions", "GetRootNodeOptions",
  "GetUserMediaRequest", "Gpu", "GpuAdapter", "GpuAdapterInfo", "GpuBindGroup", "GpuBindGroupDescriptor",
  "GpuBindGroupEntry", "GpuBindGroupLayout", "GpuBindGroupLayoutDescriptor", "GpuBindGroupLayoutEntry", "GpuBlendComponent", "GpuBlendState",
  "GpuBuffer", "GpuBufferBinding", "GpuBufferBindingLayout", "GpuBufferDescriptor", "GpuCanvasConfiguration", "GpuCanvasContext",
  "GpuColorDict", "GpuColorTargetState", "GpuCommandBuffer", "GpuCommandBufferDescriptor", "GpuCommandEncoder", "GpuCommandEncoderDescriptor",
  "GpuCompilationInfo", "GpuCompilationMessage", "GpuComputePassDescriptor", "GpuComputePassEncoder", "GpuComputePassTimestampWrite", "GpuComputePipeline",
  "GpuComputePipelineDescriptor", "GpuDepthStencilState", "GpuDevice", "GpuDeviceDescriptor", "GpuDeviceLostInfo", "GpuError",
  "GpuExtent3dDict", "GpuExternalTexture", "GpuExternalTextureBindingLayout", "GpuExternalTextureDescriptor", "GpuFragmentState", "GpuImageCopyBuffer",
  "GpuImageCopyExternalImage", "GpuImageCopyTexture", "GpuImageCopyTextureTagged", "GpuImageDataLayout", "GpuMultisampleState", "GpuObjectDescriptorBase",
  "GpuOrigin2dDict", "GpuOrigin3dDict", "GpuOutOfMemoryError", "GpuPipelineDescriptorBase", "GpuPipelineLayout", "GpuPipelineLayoutDescriptor",
  "GpuPrimitiveState", "GpuProgrammableStage", "GpuQuerySet", "GpuQuerySetDescriptor", "GpuQueue", "GpuQueueDescriptor",
  "GpuRenderBundle", "GpuRenderBundleDescriptor", "GpuRenderBundleEncoder", "GpuRenderBundleEncoderDescriptor", "GpuRenderPassColorAttachment", "GpuRenderPassDepthStencilAttachment",
  "GpuRenderPassDescriptor", "GpuRenderPassEncoder", "GpuRenderPassLayout", "GpuRenderPassTimestampWrite", "GpuRenderPipeline", "GpuRenderPipelineDescriptor",
  "GpuRequestAdapterOptions", "GpuSampler", "GpuSamplerBindingLayout", "GpuSamplerDescriptor", "GpuShaderModule", "GpuShaderModuleCompilationHint",
  "GpuShaderModuleDescriptor", "GpuStencilFaceState", "GpuStorageTextureBindingLayout", "GpuSupportedFeatures", "GpuSupportedLimits", "GpuTexture",
  "GpuTextureBindingLayout", "GpuTextureDescriptor", "GpuTextureView", "GpuTextureViewDescriptor", "GpuUncapturedErrorEvent", "GpuUncapturedErrorEventInit",
  "GpuValidationError", "GpuVertexAttribute", "GpuVertexBufferLayout", "GpuVertexState", "GroupedHistoryEventInit", "HalfOpenInfoDict",
  "HashChangeEvent", "HashChangeEventInit", "Headers", "Hid", "HidCollectionInfo", "HidConnectionEvent",
  "HidConnectionEventInit", "HidDevice", "HidDeviceFilter", "HidDeviceRequestOptions", "HidInputReportEvent", "HidInputReportEventInit",
  "HidReportInfo", "HidReportItem", "HiddenPluginEventInit", "History", "HitRegionOptions", "HkdfParams",
  "HmacDerivedKeyParams", "HmacImportParams", "HmacKeyAlgorithm", "HmacKeyGenParams", "HtmlAllCollection", "HtmlAnchorElement",
  "HtmlAreaElement", "HtmlAudioElement", "HtmlBaseElement", "HtmlBodyElement", "HtmlBrElement", "HtmlButtonElement",
  "HtmlCanvasElement", "HtmlCollection", "HtmlDListElement", "HtmlDataElement", "HtmlDataListElement", "HtmlDetailsElement",
  "HtmlDialogElement", "HtmlDirectoryElement", "HtmlDivElement", "HtmlDocument", "HtmlElement", "HtmlEmbedElement",
  "HtmlFieldSetElement", "HtmlFontElement", "HtmlFormControlsCollection", "HtmlFormElement", "HtmlFrameElement", "HtmlFrameSetElement",
  "HtmlHeadElement", "HtmlHeadingElement", "HtmlHrElement", "HtmlHtmlElement", "HtmlIFrameElement", "HtmlImageElement",
  "HtmlInputElement", "HtmlLabelElement", "HtmlLegendElement", "HtmlLiElement", "HtmlLinkElement", "HtmlMapElement",
  "HtmlMediaElement", "HtmlMenuElement", "HtmlMenuItemElement", "HtmlMetaElement", "HtmlMeterElement", "HtmlModElement",
  "HtmlOListElement", "HtmlObjectElement", "HtmlOptGroupElement", "HtmlOptionElement", "HtmlOptionsCollection", "HtmlOutputElement",
  "HtmlParagraphElement", "HtmlParamElement", "HtmlPictureElement", "HtmlPreElement", "HtmlProgressElement", "HtmlQuoteElement",
  "HtmlScriptElement", "HtmlSelectElement", "HtmlSlotElement", "HtmlSourceElement", "HtmlSpanElement", "HtmlStyleElement",
  "HtmlTableCaptionElement", "HtmlTableCellElement", "HtmlTableColElement", "HtmlTableElement", "HtmlTableRowElement", "HtmlTableSectionElement",
  "HtmlTemplateElement", "HtmlTextAreaElement", "HtmlTimeElement", "HtmlTitleElement", "HtmlTrackElement", "HtmlUListElement",
  "HtmlUnknownElement", "HtmlVideoElement", "HttpConnDict", "HttpConnInfo", "HttpConnectionElement", "IdbCursor",
  "IdbCursorWithValue", "IdbDatabase", "IdbFactory", "IdbFileHandle", "IdbFileMetadataParameters", "IdbFileRequest",
  "IdbIndex", "IdbIndexParameters", "IdbKeyRange", "IdbLocaleAwareKeyRange", "IdbMutableFile", "IdbObjectStore",
  "IdbObjectStoreParameters", "IdbOpenDbOptions", "IdbOpenDbRequest", "IdbRequest", "IdbTransaction", "IdbVersionChangeEvent",
  "IdbVersionChangeEventInit", "IdleDeadline", "IdleRequestOptions", "IirFilterNode", "IirFilterOptions", "ImageBitmap",
  "ImageBitmapRenderingContext", "ImageCapture", "ImageCaptureError", "ImageCaptureErrorEvent", "ImageCaptureErrorEventInit", "ImageData",
  "ImageDecodeOptions", "ImageDecodeResult", "ImageDecoder", "ImageDecoderInit", "ImageTrack", "ImageTrackList",
  "InputEvent", "InputEventInit", "InstallTriggerData", "IntersectionObserver", "IntersectionObserverEntry", "IntersectionObserverEntryInit",
  "IntersectionObserverInit", "IntlUtils", "IterableKeyAndValueResult", "IterableKeyOrValueResult", "JsonWebKey", "KeyAlgorithm",
  "KeyEvent", "KeyIdsInitData", "KeyboardEvent", "KeyboardEventInit", "KeyframeEffect", "KeyframeEffectOptions",
  "L10nElement", "L10nValue", "LifecycleCallbacks", "ListBoxObject", "LocalMediaStream", "LocaleInfo",
  "Location", "MediaCapabilities", "MediaCapabilitiesInfo", "MediaConfiguration", "MediaDecodingConfiguration", "MediaDeviceInfo",
  "MediaDevices", "MediaElementAudioSourceNode", "MediaElementAudioSourceOptions", "MediaEncodingConfiguration", "MediaEncryptedEvent", "MediaError",
  "MediaImage", "MediaKeyError", "MediaKeyMessageEvent", "MediaKeyMessageEventInit", "MediaKeyNeededEventInit", "MediaKeySession",
  "MediaKeyStatusMap", "MediaKeySystemAccess", "MediaKeySystemConfiguration", "MediaKeySystemMediaCapability", "MediaKeys", "MediaKeysPolicy",
  "MediaList", "MediaMetadata", "MediaMetadataInit", "MediaPositionState", "MediaQueryList", "MediaQueryListEvent",
  "MediaQueryListEventInit", "MediaRecorder", "MediaRecorderErrorEvent", "MediaRecorderErrorEventInit", "MediaRecorderOptions", "MediaSession",
  "MediaSessionActionDetails", "MediaSource", "MediaStream", "MediaStreamAudioDestinationNode", "MediaStreamAudioSourceNode", "MediaStreamAudioSourceOptions",
  "MediaStreamConstraints", "MediaStreamError", "MediaStreamEvent", "MediaStreamEventInit", "MediaStreamTrack", "MediaStreamTrackEvent",
  "MediaStreamTrackEventInit", "MediaStreamTrackGenerator", "MediaStreamTrackGeneratorInit", "MediaStreamTrackProcessor", "MediaStreamTrackProcessorInit", "MediaTrackConstraintSet",
  "MediaTrackConstraints", "MediaTrackSettings", "MediaTrackSupportedConstraints", "MessageChannel", "MessageEvent", "MessageEventInit",
  "MessagePort", "MidiAccess", "MidiConnectionEvent", "MidiConnectionEventInit", "MidiInput", "MidiInputMap",
  "MidiMessageEvent", "MidiMessageEventInit", "MidiOptions", "MidiOutput", "MidiOutputMap", "MidiPort",
  "MimeType", "MimeTypeArray", "MouseEvent", "MouseEventInit", "MouseScrollEvent", "MozDebug",
  "MutationEvent", "MutationObserver", "MutationObserverInit", "MutationObservingInfo", "MutationRecord", "NamedNodeMap",
  "NativeOsFileReadOptions", "NativeOsFileWriteAtomicOptions", "Navigator", "NavigatorAutomationInformation", "NetworkCommandOptions", "NetworkInformation",
  "NetworkResultOptions", "Node", "NodeFilter", "NodeIterator", "NodeList", "Notification",
  "NotificationBehavior", "NotificationEvent", "NotificationEventInit", "NotificationOptions", "ObserverCallback", "OesElementIndexUint",
  "OesStandardDerivatives", "OesTextureFloat", "OesTextureFloatLinear", "OesTextureHalfFloat", "OesTextureHalfFloatLinear", "OesVertexArrayObject",
  "OfflineAudioCompletionEvent", "OfflineAudioCompletionEventInit", "OfflineAudioContext", "OfflineAudioContextOptions", "OfflineResourceList", "OffscreenCanvas",
  "OpenWindowEventDetail", "OptionalEffectTiming", "OscillatorNode", "OscillatorOptions", "OvrMultiview2", "PageTransitionEvent",
  "PageTransitionEventInit", "PaintRequest", "PaintRequestList", "PaintWorkletGlobalScope", "PannerNode", "PannerOptions",
  "Path2d", "PaymentAddress", "PaymentMethodChangeEvent", "PaymentMethodChangeEventInit", "PaymentRequestUpdateEvent", "PaymentRequestUpdateEventInit",
  "PaymentResponse", "Pbkdf2Params", "Performance", "PerformanceEntry", "PerformanceEntryEventInit", "PerformanceEntryFilterOptions",
  "PerformanceMark", "PerformanceMeasure", "PerformanceNavigation", "PerformanceNavigationTiming", "PerformanceObserver", "PerformanceObserverEntryList",
  "PerformanceObserverInit", "PerformanceResourceTiming", "PerformanceServerTiming", "PerformanceTiming", "PeriodicWave", "PeriodicWaveConstraints",
  "PeriodicWaveOptions", "PermissionDescriptor", "PermissionStatus", "Permissions", "PlaneLayout", "Plugin",
  "PluginArray", "PluginCrashedEventInit", "PointerEvent", "PointerEventInit", "PopStateEvent", "PopStateEventInit",
  "PopupBlockedEvent", "PopupBlockedEventInit", "Position", "PositionError", "PositionOptions", "Presentation",
  "PresentationAvailability", "PresentationConnection", "PresentationConnectionAvailableEvent", "PresentationConnectionAvailableEventInit", "PresentationConnectionCloseEvent", "PresentationConnectionCloseEventInit",
  "PresentationConnectionList", "PresentationReceiver", "PresentationRequest", "ProcessingInstruction", "ProfileTimelineLayerRect", "ProfileTimelineMarker",
  "ProfileTimelineStackFrame", "ProgressEvent", "ProgressEventInit", "PromiseNativeHandler", "PromiseRejectionEvent", "PromiseRejectionEventInit",
  "PublicKeyCredential", "PublicKeyCredentialCreationOptions", "PublicKeyCredentialDescriptor", "PublicKeyCredentialEntity", "PublicKeyCredentialParameters", "PublicKeyCredentialRequestOptions",
  "PublicKeyCredentialRpEntity", "PublicKeyCredentialUserEntity", "PushEvent", "PushEventInit", "PushManager", "PushMessageData",
  "PushSubscription", "PushSubscriptionInit", "PushSubscriptionJson", "PushSubscriptionKeys", "PushSubscriptionOptions", "PushSubscriptionOptionsInit",
  "QueuingStrategy", "QueuingStrategyInit", "RadioNodeList", "Range", "RcwnPerfStats", "RcwnStatus",
  "ReadableByteStreamController", "ReadableStream", "ReadableStreamByobReader", "ReadableStreamByobRequest", "ReadableStreamDefaultController", "ReadableStreamDefaultReader",
  "ReadableStreamGetReaderOptions", "ReadableStreamIteratorOptions", "ReadableStreamReadResult", "ReadableWritablePair", "RegisterRequest", "RegisterResponse",
  "RegisteredKey", "RegistrationOptions", "Request", "RequestDeviceOptions", "RequestInit", "RequestMediaKeySystemAccessNotification",
  "ResizeObserver", "ResizeObserverEntry", "ResizeObserverOptions", "ResizeObserverSize", "Response", "ResponseInit",
  "RsaHashedImportParams", "RsaOaepParams", "RsaOtherPrimesInfo", "RsaPssParams", "RtcAnswerOptions", "RtcCertificate",
  "RtcCertificateExpiration", "RtcCodecStats", "RtcConfiguration", "RtcDataChannel", "RtcDataChannelEvent", "RtcDataChannelEventInit",
  "RtcDataChannelInit", "RtcFecParameters", "RtcIceCandidate", "RtcIceCandidateInit", "RtcIceCandidatePairStats", "RtcIceCandidateStats",
  "RtcIceComponentStats", "RtcIceServer", "RtcIdentityAssertion", "RtcIdentityAssertionResult", "RtcIdentityProvider", "RtcIdentityProviderDetails",
  "RtcIdentityProviderOptions", "RtcIdentityProviderRegistrar", "RtcIdentityValidationResult", "RtcInboundRtpStreamStats", "RtcMediaStreamStats", "RtcMediaStreamTrackStats",
  "RtcOfferAnswerOptions", "RtcOfferOptions", "RtcOutboundRtpStreamStats", "RtcPeerConnection", "RtcPeerConnectionIceEvent", "RtcPeerConnectionIceEventInit",
  "RtcRtcpParameters", "RtcRtpCodecParameters", "RtcRtpContributingSource", "RtcRtpEncodingParameters", "RtcRtpHeaderExtensionParameters", "RtcRtpParameters",
  "RtcRtpReceiver", "RtcRtpSender", "RtcRtpSourceEntry", "RtcRtpSynchronizationSource", "RtcRtpTransceiver", "RtcRtpTransceiverInit",
  "RtcRtxParameters", "RtcSessionDescription", "RtcSessionDescriptionInit", "RtcStats", "RtcStatsReport", "RtcStatsReportInternal",
  "RtcTrackEvent", "RtcTrackEventInit", "RtcTransportStats", "RtcdtmfSender", "RtcdtmfToneChangeEvent", "RtcdtmfToneChangeEventInit",
  "RtcrtpContributingSourceStats", "RtcrtpStreamStats", "Screen", "ScreenLuminance", "ScreenOrientation", "ScriptProcessorNode",
  "ScrollAreaEvent", "ScrollBoxObject", "ScrollIntoViewOptions", "ScrollOptions", "ScrollToOptions", "ScrollViewChangeEventInit",
  "SecurityPolicyViolationEvent", "SecurityPolicyViolationEventInit", "Selection", "ServerSocketOptions", "ServiceWorker", "ServiceWorkerContainer",
  "ServiceWorkerGlobalScope", "ServiceWorkerRegistration", "ShadowRoot", "ShadowRootInit", "ShareData", "SharedWorker",
  "SharedWorkerGlobalScope", "SignResponse", "SocketElement", "SocketOptions", "SocketsDict", "SourceBuffer",
  "SourceBufferList", "SpeechGrammar", "SpeechGrammarList", "SpeechRecognition", "SpeechRecognitionAlternative", "SpeechRecognitionError",
  "SpeechRecognitionErrorInit", "SpeechRecognitionEvent", "SpeechRecognitionEventInit", "SpeechRecognitionResult", "SpeechRecognitionResultList", "SpeechSynthesis",
  "SpeechSynthesisErrorEvent", "SpeechSynthesisErrorEventInit", "SpeechSynthesisEvent", "SpeechSynthesisEventInit", "SpeechSynthesisUtterance", "SpeechSynthesisVoice",
  "StereoPannerNode", "StereoPannerOptions", "Storage", "StorageEstimate", "StorageEvent", "StorageEventInit",
  "StorageManager", "StreamPipeOptions", "StyleRuleChangeEventInit", "StyleSheet", "StyleSheetApplicableStateChangeEventInit", "StyleSheetChangeEventInit",
  "StyleSheetList", "SubmitEvent", "SubmitEventInit", "SubtleCrypto", "SvcOutputMetadata", "SvgAngle",
  "SvgAnimateElement", "SvgAnimateMotionElement", "SvgAnimateTransformElement", "SvgAnimatedAngle", "SvgAnimatedBoolean", "SvgAnimatedEnumeration",
  "SvgAnimatedInteger", "SvgAnimatedLength", "SvgAnimatedLengthList", "SvgAnimatedNumber", "SvgAnimatedNumberList", "SvgAnimatedPreserveAspectRatio",
  "SvgAnimatedRect", "SvgAnimatedString", "SvgAnimatedTransformList", "SvgAnimationElement", "SvgBoundingBoxOptions", "SvgCircleElement",
  "SvgClipPathElement", "SvgComponentTransferFunctionElement", "SvgDefsElement", "SvgDescElement", "SvgElement", "SvgEllipseElement",
  "SvgFilterElement", "SvgForeignObjectElement", "SvgGeometryElement", "SvgGradientElement", "SvgGraphicsElement", "SvgImageElement",
  "SvgLength", "SvgLengthList", "SvgLineElement", "SvgLinearGradientElement", "SvgMarkerElement", "SvgMaskElement",
  "SvgMatrix", "SvgMetadataElement", "SvgNumber", "SvgNumberList", "SvgPathElement", "SvgPathSeg",
  "SvgPathSegArcAbs", "SvgPathSegArcRel", "SvgPathSegClosePath", "SvgPathSegCurvetoCubicAbs", "SvgPathSegCurvetoCubicRel", "SvgPathSegCurvetoCubicSmoothAbs",
  "SvgPathSegCurvetoCubicSmoothRel", "SvgPathSegCurvetoQuadraticAbs", "SvgPathSegCurvetoQuadraticRel", "SvgPathSegCurvetoQuadraticSmoothAbs", "SvgPathSegCurvetoQuadraticSmoothRel", "SvgPathSegLinetoAbs",
  "SvgPathSegLinetoHorizontalAbs", "SvgPathSegLinetoHorizontalRel", "SvgPathSegLinetoRel", "SvgPathSegLinetoVerticalAbs", "SvgPathSegLinetoVerticalRel", "SvgPathSegList",
  "SvgPathSegMovetoAbs", "SvgPathSegMovetoRel", "SvgPatternElement", "SvgPoint", "SvgPointList", "SvgPolygonElement",
  "SvgPolylineElement", "SvgPreserveAspectRatio", "SvgRadialGradientElement", "SvgRect", "SvgRectElement", "SvgScriptElement",
  "SvgSetElement", "SvgStopElement", "SvgStringList", "SvgStyleElement", "SvgSwitchElement", "SvgSymbolElement",
  "SvgTextContentElement", "SvgTextElement", "SvgTextPathElement", "SvgTextPositioningElement", "SvgTitleElement", "SvgTransform",
  "SvgTransformList", "SvgUnitTypes", "SvgUseElement", "SvgViewElement", "SvgZoomAndPan", "SvgaElement",
  "SvgfeBlendElement", "SvgfeColorMatrixElement", "SvgfeComponentTransferElement", "SvgfeCompositeElement", "SvgfeConvolveMatrixElement", "SvgfeDiffuseLightingElement",
  "SvgfeDisplacementMapElement", "SvgfeDistantLightElement", "SvgfeDropShadowElement", "SvgfeFloodElement", "SvgfeFuncAElement", "SvgfeFuncBElement",
  "SvgfeFuncGElement", "SvgfeFuncRElement", "SvgfeGaussianBlurElement", "SvgfeImageElement", "SvgfeMergeElement", "SvgfeMergeNodeElement",
  "SvgfeMorphologyElement", "SvgfeOffsetElement", "SvgfePointLightElement", "SvgfeSpecularLightingElement", "SvgfeSpotLightElement", "SvgfeTileElement",
  "SvgfeTurbulenceElement", "SvggElement", "SvgmPathElement", "SvgsvgElement", "SvgtSpanElement", "TcpServerSocket",
  "TcpServerSocketEvent", "TcpServerSocketEventInit", "TcpSocket", "TcpSocketErrorEvent", "TcpSocketErrorEventInit", "TcpSocketEvent",
  "TcpSocketEventInit", "Text", "TextDecodeOptions", "TextDecoder", "TextDecoderOptions", "TextEncoder",
  "TextMetrics", "TextTrack", "TextTrackCue", "TextTrackCueList", "TextTrackList", "TimeEvent",
  "TimeRanges", "Touch", "TouchEvent", "TouchEventInit", "TouchInit", "TouchList",
  "TrackEvent", "TrackEventInit", "TransformStream", "TransformStreamDefaultController", "Transformer", "TransitionEvent",
  "TransitionEventInit", "TreeBoxObject", "TreeCellInfo", "TreeView", "TreeWalker", "U2f",
  "U2fClientData", "UdpMessageEventInit", "UdpOptions", "UiEvent", "UiEventInit", "UnderlyingSink",
  "UnderlyingSource", "Url", "UrlSearchParams", "Usb", "UsbAlternateInterface", "UsbConfiguration",
  "UsbConnectionEvent", "UsbConnectionEventInit", "UsbControlTransferParameters", "UsbDevice", "UsbDeviceFilter", "UsbDeviceRequestOptions",
  "UsbEndpoint", "UsbInTransferResult", "UsbInterface", "UsbIsochronousInTransferPacket", "UsbIsochronousInTransferResult", "UsbIsochronousOutTransferPacket",
  "UsbIsochronousOutTransferResult", "UsbOutTransferResult", "UsbPermissionDescriptor", "UsbPermissionResult", "UsbPermissionStorage", "UserProximityEvent",
  "UserProximityEventInit", "ValidityState", "ValueEvent", "ValueEventInit", "VideoColorSpace", "VideoColorSpaceInit",
  "VideoConfiguration", "VideoDecoder", "VideoDecoderConfig", "VideoDecoderInit", "VideoDecoderSupport", "VideoEncoder",
  "VideoEncoderConfig", "VideoEncoderEncodeOptions", "VideoEncoderInit", "VideoEncoderSupport", "VideoFrame", "VideoFrameBufferInit",
  "VideoFrameCopyToOptions", "VideoFrameInit", "VideoPlaybackQuality", "VideoStreamTrack", "VideoTrack", "VideoTrackList",
  "VoidCallback", "VrDisplay", "VrDisplayCapabilities", "VrEyeParameters", "VrFieldOfView", "VrFrameData",
  "VrLayer", "VrMockController", "VrMockDisplay", "VrPose", "VrServiceTest", "VrStageParameters",
  "VrSubmitFrameResult", "VttCue", "VttRegion", "WakeLock", "WakeLockSentinel", "WatchAdvertisementsOptions",
  "WaveShaperNode", "WaveShaperOptions", "WebGl2RenderingContext", "WebGlActiveInfo", "WebGlBuffer", "WebGlContextAttributes",
  "WebGlContextEvent", "WebGlContextEventInit", "WebGlFramebuffer", "WebGlProgram", "WebGlQuery", "WebGlRenderbuffer",
  "WebGlRenderingContext", "WebGlSampler", "WebGlShader", "WebGlShaderPrecisionFormat", "WebGlSync", "WebGlTexture",
  "WebGlTransformFeedback", "WebGlUniformLocation", "WebGlVertexArrayObject", "WebKitCssMatrix", "WebSocket", "WebSocketDict",
  "WebSocketElement", "WebglColorBufferFloat", "WebglCompressedTextureAstc", "WebglCompressedTextureAtc", "WebglCompressedTextureEtc", "WebglCompressedTextureEtc1",
  "WebglCompressedTexturePvrtc", "WebglCompressedTextureS3tc", "WebglCompressedTextureS3tcSrgb", "WebglDebugRendererInfo", "WebglDebugShaders", "WebglDepthTexture",
  "WebglDrawBuffers", "WebglLoseContext", "WebglMultiDraw", "WebrtcGlobalStatisticsReport", "WheelEvent", "WheelEventInit",
  "WidevineCdmManifest", "Window", "WindowClient", "Worker", "WorkerDebuggerGlobalScope", "WorkerGlobalScope",
  "WorkerLocation", "WorkerNavigator", "WorkerOptions", "Worklet", "WorkletGlobalScope", "WorkletOptions",
  "WritableStream", "WritableStreamDefaultController", "WritableStreamDefaultWriter", "XPathExpression", "XPathNsResolver", "XPathResult",
  "XmlDocument", "XmlHttpRequest", "XmlHttpRequestEventTarget", "XmlHttpRequestUpload", "XmlSerializer", "XrBoundedReferenceSpace",
  "XrFrame", "XrInputSource", "XrInputSourceArray", "XrInputSourceEvent", "XrInputSourceEventInit", "XrInputSourcesChangeEvent",
  "XrInputSourcesChangeEventInit", "XrLayer", "XrPermissionDescriptor", "XrPermissionStatus", "XrPose", "XrReferenceSpace",
  "XrReferenceSpaceEvent", "XrReferenceSpaceEventInit", "XrRenderState", "XrRenderStateInit", "XrRigidTransform", "XrSession",
  "XrSessionEvent", "XrSessionEventInit", "XrSessionInit", "XrSessionSupportedPermissionDescriptor", "XrSpace", "XrSystem",
  "XrView", "XrViewerPose", "XrViewport", "XrWebGlLayer", "XrWebGlLayerInit", "XsltProcessor"
]

def knownJsSysTypes : List String := [
  "Array", "ArrayBuffer", "ArrayIter", "AsyncIterator", "BigInt", "BigInt64Array",
  "BigUint64Array", "Boolean", "DataView", "Date", "Error", "EvalError",
  "Float32Array", "Float64Array", "Function", "Generator", "Int8Array", "Int16Array",
  "Int32Array", "IntoIter", "Iter", "Iterator", "IteratorNext", "JsString",
  "Map", "Number", "Object", "Promise", "Proxy", "RangeError",
  "ReferenceError", "RegExp", "Set", "SharedArrayBuffer", "Symbol", "SyntaxError",
  "TypeError", "Uint8Array", "Uint8ClampedArray", "Uint16Array", "Uint32Array", "UriError",
  "WeakMap", "WeakSet"
]


/-! ## Identifier sanitizer (`util.rs::sanitize_sym`) -/

/-- Character loop of `sanitize_sym`: lower-cases a character when the input is
not all-uppercase, the previous character was an uppercase letter or digit, and
the next character (if any) is uppercase.  `prevCap` is the running
`prev_cap` flag, `rest.head?` plays the role of `next_it.next()`. -/
def sanitizeCore (allUpper : Bool) : List Char → Bool → List Char
  | [], _ => []
  | c :: rest, prevCap =>
      let keepNext : Bool := match rest.head? with
        | none => true
        | some n => n.isUpper
      let out : Char := if !allUpper && prevCap && keepNext then c.toLower else c
      out :: sanitizeCore allUpper rest (c.isUpper || c.isDigit)

/-- Rust keywords for which `parse_str::<Ident>` fails, making `sanitize_sym`
fall back to a raw `r#...` identifier.  (`self`, `super` and `crate` are
handled before this point, and no identifier arising in this development hits
the keywords that cannot be raw.) -/
def rustKeywords : List String :=
  ["as", "break", "const", "continue", "else", "enum", "extern", "false", "fn",
   "for", "if", "impl", "in", "let", "loop", "match", "mod", "move", "mut",
   "pub", "ref", "return", "static", "struct", "trait", "true", "type",
   "unsafe", "use", "where", "while", "async", "await", "dyn", "abstract",
   "become", "box", "do", "final", "macro", "override", "priv", "typeof",
   "unsized", "virtual", "yield", "try"]

/-- `sanitize_sym`: makes a JS identifier a valid Rust identifier, adjusting
casing to match the `web_sys` / `js_sys` convention. -/
def sanitizeSym (sym : String) : String :=
  if sym = "self" || sym = "super" || sym = "crate" then sym ++ "_rs"
  else
    let allUpper := sym.data.all fun c => !c.isAlpha || c.isUpper
    let s := String.mk (sanitizeCore allUpper sym.data false)
    if s ∈ rustKeywords then "r#" ++ s else s

/-! ## The ABI-legal closed set (`ty.rs::wasm_abi_set`) -/

/-- `SLICEABLE_BUILTINS`. -/
def sliceableBuiltins : List Ty :=
  [primTy "i32", primTy "isize", primTy "i64",
   primTy "u32", primTy "usize", primTy "u64",
   primTy "f32", primTy "f64"]

/-- `NON_SLICEABLE_BUILTINS`. -/
def nonSliceableBuiltins : List Ty :=
  [primTy "bool", primTy "char", unitTy, stringTy]

/-- `KNOWN_TYPES`: the three catalogs parsed as types (every catalog entry is a
plain identifier, so `parse_str` yields a bare single-segment path). -/
def knownTys : List Ty :=
  (knownStringTypes ++ knownWebSysTypes ++ knownJsSysTypes).map bareTy

/-- `wasm_abi_set(custom)`: the closed boundary-safe set.  `custom` is the set
of names exported by the module (each parsed as a bare path).  The set is the
base types plus their closures under `&_`, `Option<_>` and (for sliceable
builtins, catalog types and custom types only) `Box<[_]>` and
`Option<Box<[_]>>`, plus `JsValue`.  Membership in a Rust `HashSet` is modelled
by membership in this list. -/
def wasmAbiSet (custom : List String) : List Ty :=
  let jsObjects := custom.map bareTy
  let base := sliceableBuiltins ++ nonSliceableBuiltins ++ knownTys ++ jsObjects
  let sliceBase := sliceableBuiltins ++ knownTys ++ jsObjects
  base ++ base.map .ref ++ base.map optionTy ++
    sliceBase.map boxedSliceTy ++ sliceBase.map (fun t => optionTy (boxedSliceTy t)) ++
    [jsValue]

/-! ## ABI legalization (`util.rs::WasmAbify` and `NestedTyFinder`) -/

/-- Is this type a reference to a trait object (`&dyn Fn(...)`)? -/
def isRefDynFn : Ty → Bool
  | .ref (.dynFn _) => true
  | _ => false

/-- `WasmAbify::visit_type_mut`: a reference to a trait object is left alone;
any other type not in the ABI set is replaced with `JsValue`.  (The visitor
does not recurse into subterms.) -/
def abifyType (s : List Ty) (t : Ty) : Ty :=
  if isRefDynFn t then t
  else if t ∈ s then t
  else jsValue

/-- `NestedTyFinder::visit_type`: digs through 3-segment `Option<_>` and
`Box<[_]>` paths; a 1-segment argument-free path or any non-path type is the
found core; everything else yields nothing. -/
def nestedTyFind : Ty → Option Ty
  | .path _ (.cons _ _ (.cons _ _ (.cons "Option" (.cons a .nil) .nil))) =>
      nestedTyFind a
  | .path _ (.cons _ _ (.cons _ _ (.cons "Box" (.cons (.slice e) .nil) .nil))) =>
      nestedTyFind e
  | .path lc (.cons n .nil .nil) => some (.path lc (.cons n .nil .nil))
  | .path _ _ => none
  | t => some t

/-- `WasmAbify::visit_return_type_mut`: references cannot be returned, so a
return type whose nested core is a reference to a trait object becomes
`JsValue`; otherwise the ordinary type rule applies.  `none` models
`ReturnType::Default`. -/
def abifyReturn (s : List Ty) : Option Ty → Option Ty
  | none => none
  | some ty =>
    match nestedTyFind ty with
    | some (.ref (.dynFn _)) => some jsValue
    | _ => some (abifyType s ty)

/-- A Rust function signature as produced by this program: name, typed
parameters (pattern identifier and type), and optional return type. -/
structure FnSig where
  ident : String
  inputs : List (String × Ty)
  output : Option Ty
  deriving DecidableEq

/-- `WasmAbify` over a whole signature (the default visitor applies
`visit_type_mut` to every parameter type and `visit_return_type_mut` to the
return type). -/
def abifySig (s : List Ty) (sig : FnSig) : FnSig :=
  { sig with
    inputs := sig.inputs.map fun (n, t) => (n, abifyType s t)
    output := abifyReturn s sig.output }


/-! ## Generics erasure (`util.rs::ByeByeGenerics`) -/

/-- Does this segment list form a bare in-scope reference: a single segment,
with no generic arguments, whose identifier is in the generics scope? -/
def byeBareHit (scope : List String) : Segs → Bool
  | .cons n .nil .nil => decide (n ∈ scope)
  | _ => false

mutual
/-- `ByeByeGenerics::visit_type_path_mut`: a bare single-segment argument-free
path whose name is in scope becomes `JsValue` (visiting the replacement's
segments afterwards is a no-op since `JsValue` has no arguments); otherwise the
visitor recurses into every segment's arguments.  All other type shapes are
traversed by the default visitor. -/
def byeByeTy (scope : List String) : Ty → Ty
  | .path lc segs =>
      if byeBareHit scope segs then jsValue else .path lc (byeByeSegs scope segs)
  | .ref e => .ref (byeByeTy scope e)
  | .dynFn ins => .dynFn (byeByeTys scope ins)
  | .slice e => .slice (byeByeTy scope e)
  | .tup es => .tup (byeByeTys scope es)
  | .paren e => .paren (byeByeTy scope e)

/-- `ByeByeGenerics` over a segment list. -/
def byeByeSegs (scope : List String) : Segs → Segs
  | .nil => .nil
  | .cons n args rest => .cons n (byeByeTys scope args) (byeByeSegs scope rest)

/-- `ByeByeGenerics` over a type list. -/
def byeByeTys (scope : List String) : Tys → Tys
  | .nil => .nil
  | .cons t r => .cons (byeByeTy scope t) (byeByeTys scope r)
end

/-- `ByeByeGenerics` over a whole signature (`visit_signature_mut`: the default
visitor reaches every parameter type and the return type). -/
def byeByeSig (scope : List String) (sig : FnSig) : FnSig :=
  { sig with
    inputs := sig.inputs.map fun (n, t) => (n, byeByeTy scope t)
    output := sig.output.map (byeByeTy scope) }

mutual
/-- Does the type contain, anywhere, a bare single-segment argument-free
reference to a name in `scope`?  (The property the Generics Erasure Pass is
meant to eliminate.) -/
def containsBareTy (scope : List String) : Ty → Bool
  | .path _ segs => byeBareHit scope segs || containsBareSegs scope segs
  | .ref e => containsBareTy scope e
  | .dynFn ins => containsBareTys scope ins
  | .slice e => containsBareTy scope e
  | .tup es => containsBareTys scope es
  | .paren e => containsBareTy scope e

/-- `containsBareTy` over a segment list's arguments. -/
def containsBareSegs (scope : List String) : Segs → Bool
  | .nil => false
  | .cons _ args rest => containsBareTys scope args || containsBareSegs scope rest

/-- `containsBareTy` over a type list. -/
def containsBareTys (scope : List String) : Tys → Bool
  | .nil => false
  | .cons t r => containsBareTy scope t || containsBareTys scope r
end

/-- `containsBareTy` over a whole signature. -/
def containsBareSig (scope : List String) (sig : FnSig) : Bool :=
  sig.inputs.any (fun (_, t) => containsBareTy scope t) ||
    (match sig.output with
     | none => false
     | some t => containsBareTy scope t)

/-! ## Final bindings cleanup (`util.rs::BindingsCleaner`) -/

/-- Name of the last segment. -/
def Segs.lastName? : Segs → Option String
  | .nil => none
  | .cons n _ .nil => some n
  | .cons _ _ (.cons m a r) => Segs.lastName? (.cons m a r)

mutual
/-- `BindingsCleaner::visit_type_mut` / `visit_type_path_mut`:
parentheses are unwrapped and revisited; on a leading-colon path whose last
segment is `Option` and whose first argument is a leading-colon path ending in
`Option` or `JsValue`, the whole path is replaced by that inner path (one
flattening step); a bare single-segment path whose identifier is in the known
string-enum catalog becomes `::std::string::String` (which has no arguments,
so visiting its segments afterwards is a no-op); afterwards the (possibly
replaced) path's segment arguments are visited. -/
def cleanerTy : Ty → Ty
  | .paren e => cleanerTy e
  | .path lc segs =>
      if lc then
        match cleanerFlat segs with
        | some t => t
        | none => .path lc (cleanerSegs segs)
      else
        match segs with
        | .cons n _ .nil =>
            if n ∈ knownStringTypes then stringTy else .path lc (cleanerSegs segs)
        | _ => .path lc (cleanerSegs segs)
  | .ref e => .ref (cleanerTy e)
  | .dynFn ins => .dynFn (cleanerTys ins)
  | .slice e => .slice (cleanerTy e)
  | .tup es => .tup (cleanerTys es)

/-- The `Option`-flattening step of `BindingsCleaner::visit_type_path_mut`,
walking to the last segment; when it applies, the replacing inner path's
segments are visited (this performs the for-loop over the replaced path's
segments). -/
def cleanerFlat : Segs → Option Ty
  | .cons "Option" (.cons (.path true segsI) _) .nil =>
      (match segsI.lastName? with
       | some nI =>
           if nI = "Option" || nI = "JsValue" then some (.path true (cleanerSegs segsI))
           else none
       | none => none)
  | .cons _ _ (.cons m a r) => cleanerFlat (.cons m a r)
  | _ => none

/-- `BindingsCleaner` over a segment list (visits each segment's arguments). -/
def cleanerSegs : Segs → Segs
  | .nil => .nil
  | .cons n args rest => .cons n (cleanerTys args) (cleanerSegs rest)

/-- `BindingsCleaner` over a type list. -/
def cleanerTys : Tys → Tys
  | .nil => .nil
  | .cons t r => .cons (cleanerTy t) (cleanerTys r)
end

/-! ## Import/export path translation
(`util.rs::import_prefix_to_idents` / `import_path_to_type_path_prefix`) -/

/-- A path segment's identifier: a trailing `.js` is stripped and `Mod` is
appended. -/
def importSegIdent (seg : String) : String :=
  (if seg.endsWith ".js" then seg.dropRight 3 else seg) ++ "Mod"

/-- The shared loop of `import_prefix_to_idents` and
`import_path_to_type_path_prefix`, over the `/`-separated segments, with the
running `first_dot_dot` flag: `.` pushes one `super`; the first `..` pushes two
`super`s; every later `..` pushes one `super`; any other segment pushes its
`Mod`-suffixed identifier. -/
def importPrefixSegs : List String → Bool → List String
  | [], _ => []
  | seg :: rest, firstDotDot =>
      if seg = "." then "super" :: importPrefixSegs rest firstDotDot
      else if seg = ".." then
        if firstDotDot then "super" :: "super" :: importPrefixSegs rest false
        else "super" :: importPrefixSegs rest firstDotDot
      else importSegIdent seg :: importPrefixSegs rest firstDotDot

/-- Rust's `str::split('/')`: empty leading/trailing/adjacent segments are
kept, the empty string yields one empty segment. -/
def splitSlashAux : List Char → List Char → List String
  | [], acc => [String.mk acc.reverse]
  | c :: rest, acc =>
      if c = '/' then String.mk acc.reverse :: splitSlashAux rest []
      else splitSlashAux rest (c :: acc)

/-- Split a path on `/`. -/
def splitSlash (s : String) : List String := splitSlashAux s.data []

/-- `import_prefix_to_idents`. -/
def importPrefixToIdents (path : String) : List String :=
  importPrefixSegs (splitSlash path) true

/-- Build an argument-free segment list from identifiers. -/
def segsOfNames : List String → Segs
  | [] => .nil
  | n :: r => .cons n .nil (segsOfNames r)

/-- `import_path_to_type_path_prefix`: same loop, producing path segments. -/
def importPathToTypePathPrefix (path : String) : Segs :=
  segsOfNames (importPrefixSegs (splitSlash path) true)


/-! ## The TypeScript type grammar (`swc_ecma_ast`), restricted to the
constructs `ts.rs` supports.  The keyword kinds `bigint` / `symbol` /
`intrinsic`, constructor types, and rest / predicate / conditional /
type-operator / mapped types hit `todo!()` in `ts_type_to_type` (fatal for the
enclosing declaration) and are omitted from the grammar. -/

/-- Keyword type kinds handled by `ts_type_to_type`. -/
inductive TsKeyword where
  | any | unknown | null | undefined | never | object
  | number | boolean | string | void
  deriving DecidableEq

/-- A member key (`swc` `PropName` / `Expr`): `key.as_ident()` succeeds only on
`propIdent`. -/
inductive PropName where
  | propIdent (sym : String)
  | propOther
  deriving DecidableEq

/-- A possibly-qualified entity name (`TsEntityName`). -/
inductive TsEntityName where
  | ident (sym : String)
  | qualified (left : TsEntityName) (right : String)
  deriving DecidableEq

/-- The `syms` vector collected by the qualified-name loop of
`ts_type_to_type`: right-most symbol first, base identifier last. -/
def entitySyms : TsEntityName → List String
  | .ident s => [s]
  | .qualified l r => r :: entitySyms l

mutual
/-- `swc_ecma_ast::TsType`, restricted as described above.  `typeLit` carries
its members because declaration lowering of type aliases reads them (the type
mapper itself only emits a diagnostic for a type literal).  `importType`
carries the import string and the qualifier identifier (a missing or
non-identifier qualifier panics in the source and is omitted from the
model). -/
inductive TsType where
  | kw (k : TsKeyword)
  | fnType (params : TsFnParams) (typeParams : List String)
  | typeRef (name : TsEntityName) (typeArgs : TsTypesOpt)
  | typeQuery
  | typeLit (members : TsTypeElems)
  | arrayType (elem : TsType)
  | optionalType (elem : TsType)
  | unionType (types : TsTypes)
  | intersectionType (types : TsTypes)
  | parenthesizedType (elem : TsType)
  | litType
  | importType (arg : String) (qualifier : String)
  | tupleType (elems : TsTypes)
  | indexedAccessType
  | inferType
  | thisType

/-- A list of TypeScript types (first-order). -/
inductive TsTypes where
  | nil
  | cons (head : TsType) (tail : TsTypes)

/-- Optional generic-argument list of a type reference (`None` vs `Some`). -/
inductive TsTypesOpt where
  | none
  | some (args : TsTypes)

/-- An optional type annotation. -/
inductive TsTypeOpt where
  | none
  | some (t : TsType)

/-- Parameters of a function type: `ts_type_to_type` only reads each
parameter's optional type annotation (identifier, rest, array and object
patterns are all treated alike). -/
inductive TsFnParams where
  | nil
  | cons (ann : TsTypeOpt) (rest : TsFnParams)

/-- `swc` patterns as consumed by `pat_to_pat_type`: an identifier pattern
with its `optional` flag and optional annotation, a rest pattern, or any of
the other pattern kinds (array / object / assign / invalid / expr), which hit
`todo!()`. -/
inductive PatM where
  | identPat (sym : String) (optional : Bool) (ann : TsTypeOpt)
  | restPat (arg : PatM)
  | otherPat

/-- A list of patterns (first-order). -/
inductive Pats where
  | nil
  | cons (p : PatM) (rest : Pats)

/-- `TsTypeElement`: members of interface bodies and type literals.
`propSig` keeps only whether `params` is nonempty (the source asserts it is
empty). -/
inductive TsTypeElem where
  | callSig
  | constructSig
  | propSig (key : PropName) (hasParams : Bool) (ann : TsTypeOpt)
      (typeParams : List String) (optional : Bool)
  | getterSig (key : PropName) (ann : TsTypeOpt)
  | setterSig (key : PropName) (param : PatM)
  | methodSig (key : PropName) (params : Pats) (ann : TsTypeOpt)
      (typeParams : List String)
  | indexSig

/-- A list of type elements (first-order). -/
inductive TsTypeElems where
  | nil
  | cons (e : TsTypeElem) (rest : TsTypeElems)
end

deriving instance DecidableEq for TsType, TsTypes, TsTypesOpt, TsTypeOpt,
  TsFnParams, PatM, Pats, TsTypeElem, TsTypeElems

/-- Is this type the `undefined` or `null` keyword (the
`as_ts_keyword_type` + kind check of the union rule)? -/
def isNullOrUndefinedKw : TsType → Bool
  | .kw .undefined => true
  | .kw .null => true
  | _ => false

/-- Append two segment lists. -/
def Segs.append : Segs → Segs → Segs
  | .nil, t => t
  | .cons n a r, t => .cons n a (Segs.append r t)

/-- Segment names of a qualified type reference: every outer symbol (in
outer-to-inner order) gets `Mod` appended and is sanitized; the innermost
symbol is sanitized as is. -/
def qualifiedRefSegs (syms : List String) : List String :=
  (syms.drop 1).reverse.map (fun s => sanitizeSym (s ++ "Mod")) ++
    [sanitizeSym (syms.headD "")]

/-! ## The type mapping engine (`ty.rs::ts_type_to_type`)

Modelled with two result channels: the produced `Ty` and the ordered list of
`eprintln!` diagnostics.  The result is `none` exactly where the source
panics (`Array` with a generic-argument list not of length one makes
`parse_quote!` fail on `Box<[T1, T2]>`). -/

mutual
/-- `ts_type_to_type`. -/
def tsTypeToTypeD : TsType → Option (Ty × List String)
  | .kw .unknown => some (jsValue, [])
  | .kw .any => some (jsValue, [])
  | .kw .null => some (jsValue, [])
  | .kw .undefined => some (jsValue, [])
  | .kw .never => some (jsValue, [])
  | .kw .object => some (jsValue, [])
  | .kw .number => some (primTy "f64", [])
  | .kw .boolean => some (primTy "bool", [])
  | .kw .string => some (stringTy, [])
  | .kw .void => some (unitTy, [])
  | .fnType params tps => do
      let (ins, d) ← tsFnParamsToTys params
      let scope := tps.map sanitizeSym
      some (.ref (.paren (.dynFn (Tys.ofList (ins.map (byeByeTy scope))))), d)
  | .typeRef (.qualified l r) _ =>
      some (.path false (segsOfNames (qualifiedRefSegs (entitySyms (.qualified l r)))), [])
  | .typeRef (.ident sym) .none => some (bareTy (sanitizeSym sym), [])
  | .typeRef (.ident sym) (.some ts) => do
      let (l, d) ← tsTypesToTysD ts
      if sanitizeSym sym = "Array" then
        match l with
        | [t] => some (boxedSliceTy t, d)
        | _ => none
      else some (bareTy (sanitizeSym sym), d)
  | .typeQuery => some (jsValue, ["Type queries unsupported"])
  | .typeLit _ => some (jsValue, ["Type literals unsupported"])
  | .arrayType e => do
      let (t, d) ← tsTypeToTypeD e
      some (boxedSliceTy t, d)
  | .optionalType e => do
      let (t, d) ← tsTypeToTypeD e
      some (optionTy t, d)
  | .unionType (.cons a (.cons b .nil)) =>
      if isNullOrUndefinedKw b then do
        let (ta, d) ← tsTypeToTypeD a
        some (optionTy ta, d)
      else some (jsValue, [])
  | .unionType _ => some (jsValue, [])
  | .intersectionType (.cons t _) => tsTypeToTypeD t
  | .intersectionType .nil => some (jsValue, ["Empty intersection type"])
  | .parenthesizedType e => do
      let (t, d) ← tsTypeToTypeD e
      some (.paren t, d)
  | .litType => some (jsValue, ["Lit types unsupported"])
  | .importType arg q =>
      if arg.startsWith "." then
        some (.path false
          (Segs.append (importPathToTypePathPrefix arg)
            (.cons (sanitizeSym q) .nil .nil)), [])
      else some (jsValue, ["Import unknown"])
  | .tupleType elems => do
      let (l, d) ← tsTypesToTysD elems
      match l with
      | [] => some (unitTy, d)
      | [t] => some (.paren t, d)
      | ts => some (.tup (Tys.ofList ts), d)
  | .indexedAccessType => some (jsValue, ["Indexed access type unsupported"])
  | .inferType => some (jsValue, [])
  | .thisType => some (bareTy "Self", [])

/-- `ts_type_to_type` over a list of types, diagnostics in order. -/
def tsTypesToTysD : TsTypes → Option (List Ty × List String)
  | .nil => some ([], [])
  | .cons t r => do
      let (t1, d1) ← tsTypeToTypeD t
      let (l, d2) ← tsTypesToTysD r
      some (t1 :: l, d1 ++ d2)

/-- The parameter loop of the function-type case: a missing annotation maps to
`JsValue`. -/
def tsFnParamsToTys : TsFnParams → Option (List Ty × List String)
  | .nil => some ([], [])
  | .cons .none r => do
      let (l, d) ← tsFnParamsToTys r
      some (jsValue :: l, d)
  | .cons (.some t) r => do
      let (t1, d1) ← tsTypeToTypeD t
      let (l, d2) ← tsFnParamsToTys r
      some (t1 :: l, d1 ++ d2)
end

/-- The type produced by `ts_type_to_type`, diagnostics dropped. -/
def tsTypeToType (t : TsType) : Option Ty :=
  (tsTypeToTypeD t).map Prod.fst


/-! ## Binding items and `wasm_bindgen` attributes -/

/-- The `wasm_bindgen` attribute payloads this program attaches to items
(each models one `#[wasm_bindgen(...)]` attribute). -/
inductive WAttr where
  | ctorTag
  | methodTag
  | methodGetter
  | methodSetter
  | staticMethodOf (cls : String)
  | jsName (raw : String)
  | jsNamespace (segs : List String)
  | extendsAttr (cls : String)
  deriving DecidableEq

/-- A `syn::ForeignItem` as produced by this program: an extern function, an
extern static, or an opaque extern type. -/
inductive ForeignItemM where
  | fnItem (attrs : List WAttr) (sig : FnSig)
  | staticItem (attrs : List WAttr) (ident : String) (ty : Ty)
  | typeItem (attrs : List WAttr) (ident : String)
  deriving DecidableEq

/-! ## Owner-key computation (`wasm.rs::method_of`) -/

/-- The attribute loop of `method_of`: a `static_method_of = C` attribute
yields the class path; a `constructor` tag yields the return type's path when
the return type is a path (otherwise the loop continues); other attributes are
skipped.  (In this program `static_method_of` always carries a single
identifier.) -/
def methodOfAttrs : List WAttr → Option Ty → Option Ty
  | [], _ => none
  | .staticMethodOf c :: _, _ => some (bareTy c)
  | .ctorTag :: rest, out =>
      match out with
      | some (.path lc segs) => some (.path lc segs)
      | _ => methodOfAttrs rest out
  | _ :: rest, out => methodOfAttrs rest out

/-- `method_of`: the attribute loop, then the fallback that inspects the first
parameter — a `this` parameter of reference-to-path type names the owner. -/
def methodOf (attrs : List WAttr) (sig : FnSig) : Option Ty :=
  match methodOfAttrs attrs sig.output with
  | some p => some p
  | none =>
      match sig.inputs with
      | (pn, .ref (.path lc segs)) :: _ =>
          if pn = "this" then some (.path lc segs) else none
      | _ => none

/-! ## Collision resolution (`util.rs::ModuleBindingsCleaner`) -/

/-- `SelfToClass::visit_type_mut`: replaces a single-segment argument-free
`Self` path with the class type (no recursion into subterms). -/
def selfToClassTy (cls : Ty) : Ty → Ty
  | .path _ (.cons "Self" .nil .nil) => cls
  | t => t

/-- `ModuleBindingsCleaner::visit_signature_mut`: when the first parameter has
a reference type, its referent is the class type and every top-level parameter
and return type has `Self` resolved to it; otherwise the signature is left
alone. -/
def selfToClassSig (sig : FnSig) : FnSig :=
  match sig.inputs with
  | (_, .ref elem) :: _ =>
      { sig with
        inputs := sig.inputs.map fun (n, t) => (n, selfToClassTy elem t)
        output := sig.output.map (selfToClassTy elem) }
  | _ => sig

/-- The candidate names tried by the renaming loop: the base name itself, then
`base_1`, `base_2`, ... -/
def dedupeCandidate (base : String) : Nat → String
  | 0 => base
  | k + 1 => base ++ "_" ++ Nat.repr (k + 1)

/-- The `while entries.contains(...)` loop, fuelled: starting at candidate
index `k`, return the first candidate not yet registered. -/
def freshFrom (taken : List String) (base : String) : Nat → Nat → String
  | 0, k => dedupeCandidate base k
  | fuel + 1, k =>
      if dedupeCandidate base k ∈ taken then freshFrom taken base fuel (k + 1)
      else dedupeCandidate base k

/-- First free name for `base` given the registered set `taken` (the fuel
`taken.length + 1` suffices: the candidates are pairwise distinct, so among
the first `taken.length + 1` of them one is unregistered). -/
def freshName (taken : List String) (base : String) : String :=
  freshFrom taken base (taken.length + 1) 0

/-- The per-owner name registry (`HashMap<Option<syn::Path>, HashSet<String>>`):
the owner key is `none` for free functions and statics, `some path` for
methods. -/
def DedupeState := Option Ty → List String

/-- Initial empty registry. -/
def DedupeState.empty : DedupeState := fun _ => []

/-- `ModuleBindingsCleaner::visit_foreign_item_mut`: opaque types are left
alone and not registered; functions first get `Self` resolved, then functions
and statics are renamed to the first free candidate under their owner key and
the new name is registered. -/
def dedupeFI (st : DedupeState) : ForeignItemM → DedupeState × ForeignItemM
  | .typeItem a n => (st, .typeItem a n)
  | .fnItem attrs sig =>
      let sig := selfToClassSig sig
      let clazz := methodOf attrs sig
      let taken := st clazz
      let final := freshName taken sig.ident
      (fun k => if k = clazz then final :: taken else st k,
       .fnItem attrs { sig with ident := final })
  | .staticItem attrs n ty =>
      let taken := st none
      let final := freshName taken n
      (fun k => if k = none then final :: taken else st k,
       .staticItem attrs final ty)

/-- The pass over a list of items, threading the registry. -/
def dedupeGo (st : DedupeState) : List ForeignItemM → List ForeignItemM
  | [] => []
  | fi :: rest =>
      let (st', fi') := dedupeFI st fi
      fi' :: dedupeGo st' rest

/-- One `ModuleBindingsCleaner::default()` run over a composed block's items. -/
def dedupeItems (l : List ForeignItemM) : List ForeignItemM :=
  dedupeGo DedupeState.empty l

/-- The owner key of an emitted item, as the pass computes it (`none` result:
opaque types are not subject to renaming). -/
def itemOwner? : ForeignItemM → Option (Option Ty)
  | .typeItem _ _ => none
  | .fnItem attrs sig => some (methodOf attrs (selfToClassSig sig))
  | .staticItem _ _ _ => some none

/-- The name of a renameable item. -/
def itemName? : ForeignItemM → Option String
  | .typeItem _ _ => none
  | .fnItem _ sig => some sig.ident
  | .staticItem _ n _ => some n


/-! ## Patterns and function signatures (`pat.rs`, `func.rs`) -/

/-- `pat_to_pat_type`: an identifier pattern becomes a sanitized name plus its
mapped annotation (`JsValue` when absent), `Option`-wrapped when the binding is
optional; a rest pattern recurses on its argument; array / object / assign /
invalid / expr patterns hit `todo!()`. -/
def patToPatType : PatM → Option (String × Ty)
  | .identPat sym opt ann => do
      let ty ← match ann with
        | .some a => tsTypeToType a
        | .none => some jsValue
      some (sanitizeSym sym, if opt then optionTy ty else ty)
  | .restPat arg => patToPatType arg
  | .otherPat => none

/-- A `swc` `Function`: parameter patterns, type-parameter names, and optional
return type annotation.  (`type_params: Option<Box<TsTypeParamDecl>>` is
modelled by the — possibly empty — list of its parameter names.) -/
structure FunctionM where
  params : List PatM
  typeParams : List String
  returnType : TsTypeOpt
  deriving DecidableEq

/-- Is this type the `void` keyword (the return-type filter)? -/
def isVoidKw : TsType → Bool
  | .kw .void => true
  | _ => false

/-- `func.rs::function_signature`: maps every parameter with
`pat_to_pat_type`, drops a `void` return type, maps any other return type, and
strips the function's own sanitized type-parameter names from the signature.
(The source constructs the stripper from the generics list; its stripping
behaviour is that of `ByeByeGenerics`, the only visitor in this program built
from a list of identifiers.) -/
def functionSignature (name : String) (f : FunctionM) : Option FnSig := do
  let generics := f.typeParams.map sanitizeSym
  let params ← f.params.mapM patToPatType
  let ret ← match f.returnType with
    | .none => some Option.none
    | .some t =>
        if isVoidKw t then some Option.none
        else do
          let ty ← tsTypeToType t
          some (Option.some ty)
  some (byeByeSig generics ⟨name, params, ret⟩)

/-! ## Declaration lowering (`decl.rs`) -/

/-- `ByeByeGenerics::visit_foreign_item_mut` (default traversal): erases
in-scope generics from a function's signature or a static's type. -/
def byeByeItem (scope : List String) : ForeignItemM → ForeignItemM
  | .fnItem a sig => .fnItem a (byeByeSig scope sig)
  | .staticItem a n t => .staticItem a n (byeByeTy scope t)
  | .typeItem a n => .typeItem a n

/-- `key.as_ident()`. -/
def PropName.asIdent? : PropName → Option String
  | .propIdent s => some s
  | .propOther => none

/-- Method kinds (`swc` `MethodKind`). -/
inductive MethodKind where
  | method | getter | setter
  deriving DecidableEq

/-- `decl.rs::method_to_binding`: getter/setter names are prefixed
(`get_` / `set_`) and re-sanitized; the signature is built by
`function_signature`, cleaned with the caller's generics scope, and instance
methods gain a leading `this: &Class` parameter; the kind attribute and a
`js_name` attribute are attached. -/
def methodToBinding (className : String) (scope : List String) (rawName : String)
    (kind : MethodKind) (isStatic : Bool) (f : FunctionM) : Option ForeignItemM := do
  let methodName := match kind with
    | .method => sanitizeSym rawName
    | .getter => sanitizeSym ("get_" ++ sanitizeSym rawName)
    | .setter => sanitizeSym ("set_" ++ sanitizeSym rawName)
  let sig ← functionSignature methodName f
  let sig := byeByeSig scope sig
  let sig :=
    if isStatic then sig
    else { sig with inputs := ("this", .ref (bareTy className)) :: sig.inputs }
  let kindAttr :=
    if isStatic then WAttr.staticMethodOf className
    else match kind with
      | .method => WAttr.methodTag
      | .getter => WAttr.methodGetter
      | .setter => WAttr.methodSetter
  some (.fnItem [kindAttr, .jsName rawName] sig)

/-- `decl.rs::prop_to_binding`: a property becomes a getter-shaped accessor
`fn name(this: &Class) -> Ty` (the `this` parameter is present even for static
properties), `Option`-wrapped when optional, with `static_method_of` or
`method` plus `js_name` attributes. -/
def propToBinding (className : String) (scope : List String) (rawPropName : String)
    (isStatic : Bool) (isOptional : Bool) (ann : TsTypeOpt) : Option ForeignItemM := do
  let propName := sanitizeSym rawPropName
  let ty ← match ann with
    | .some a => tsTypeToType a
    | .none => some jsValue
  let ty := if isOptional then optionTy ty else ty
  let sig := byeByeSig scope ⟨propName, [("this", .ref (bareTy className))], Option.some ty⟩
  let attr := if isStatic then WAttr.staticMethodOf className else WAttr.methodTag
  some (.fnItem [attr, .jsName rawPropName] sig)

/-- `decl.rs::ty_to_binding`: an opaque `pub type` item carrying a `js_name`
attribute with the raw name. -/
def tyToBinding (rawName : String) : ForeignItemM :=
  .typeItem [.jsName rawName] (sanitizeSym rawName)

/-- `Pats` as an ordinary list. -/
def Pats.toList : Pats → List PatM
  | .nil => []
  | .cons p r => p :: r.toList

/-- `decl.rs::ty_elems_to_binding` (the per-member loop): call / construct
signatures hit `todo!()`; a property signature with parameters violates an
assertion; property / getter / setter / method signatures with identifier keys
lower to accessors and instance methods (getters and setters go through fake
`Function`s); members with non-identifier keys are skipped; index signatures
only emit a diagnostic.  Method and property signatures compose their own
type-parameter scope with the enclosing declaration's. -/
def tyElemsToBindingGo (name : String) (classScope : List String) :
    TsTypeElems → Option (List ForeignItemM)
  | .nil => some []
  | .cons e rest => do
      let items ← (match e with
        | .callSig => none
        | .constructSig => none
        | .propSig key hasParams ann tps opt =>
            if hasParams then none
            else match key with
              | .propIdent sym => do
                  let it ← propToBinding name (tps.map sanitizeSym ++ classScope) sym
                    false opt ann
                  some [it]
              | .propOther => some []
        | .getterSig key ann =>
            match key with
            | .propIdent sym => do
                let it ← methodToBinding name classScope sym .getter false
                  ⟨[], [], ann⟩
                some [it]
            | .propOther => some []
        | .setterSig key param =>
            match key with
            | .propIdent sym => do
                let it ← methodToBinding name classScope sym .setter false
                  ⟨[param], [], .none⟩
                some [it]
            | .propOther => some []
        | .methodSig key params ann tps =>
            match key with
            | .propIdent sym => do
                let it ← methodToBinding name (tps.map sanitizeSym ++ classScope) sym
                  .method false ⟨params.toList, tps, ann⟩
                some [it]
            | .propOther => some []
        | .indexSig => some [])
      let restItems ← tyElemsToBindingGo name classScope rest
      some (items ++ restItems)

/-- `ty_elems_to_binding`: the member loop followed by the
`ModuleBindingsCleaner` dedupe run over the produced items. -/
def tyElemsToBinding (name : String) (classScope : List String)
    (elems : TsTypeElems) : Option (List ForeignItemM) := do
  let items ← tyElemsToBindingGo name classScope elems
  some (dedupeItems items)

/-- `swc` `Accessibility`. -/
inductive Accessibility where
  | publicAcc | protectedAcc | privateAcc
  deriving DecidableEq

/-- Is the member explicitly private or protected? -/
def isPrivProt : Option Accessibility → Bool
  | some .privateAcc => true
  | some .protectedAcc => true
  | _ => false

/-- A constructor parameter (`ParamOrTsParamProp`): `as_param().unwrap()`
panics on a TS parameter property. -/
inductive CtorParam where
  | plain (p : PatM)
  | tsParamProp
  deriving DecidableEq

/-- A class member, restricted to what `class_to_binding` handles;
`unsupportedMember` covers index signatures, empty members and static blocks,
which hit `todo!()`. -/
inductive ClassMember where
  | ctor (accessibility : Option Accessibility) (key : PropName) (params : List CtorParam)
  | method (accessibility : Option Accessibility) (key : PropName) (kind : MethodKind)
      (isStatic : Bool) (f : FunctionM)
  | classProp (accessibility : Option Accessibility) (key : PropName) (ann : TsTypeOpt)
      (isStatic : Bool) (isOptional : Bool)
  | privateMethod
  | privateProp
  | unsupportedMember
  deriving DecidableEq

/-- A superclass expression: a simple identifier or anything else. -/
inductive SuperClass where
  | superIdent (sym : String)
  | superComplex
  deriving DecidableEq

/-- A class declaration. -/
structure ClassDeclM where
  ident : String
  typeParams : List String
  superClass : Option SuperClass
  body : List ClassMember
  deriving DecidableEq

/-- One iteration of the member loop of `class_to_binding`: explicitly
private/protected members are skipped; a constructor is lowered to a
`constructor`-tagged function named `new` when its identifier key is
`constructor` and under its sanitized own name otherwise (a non-identifier key
panics, as does a TS parameter property); methods and properties with
identifier keys are lowered, others are skipped; Rust-private members produce
nothing; index signatures, empty members and static blocks hit `todo!()`. -/
def classMemberItem (className : String) (scope : List String) :
    ClassMember → Option (List ForeignItemM)
  | .ctor acc key params =>
      if isPrivProt acc then some []
      else do
        let sym ← key.asIdent?
        let name := if sym = "constructor" then "new" else sanitizeSym sym
        let ps ← params.mapM fun cp =>
          match cp with
          | .plain p => patToPatType p
          | .tsParamProp => none
        let sig := byeByeSig scope ⟨name, ps, Option.some (bareTy className)⟩
        some [ForeignItemM.fnItem [WAttr.ctorTag] sig]
  | .method acc key kind isStatic f =>
      if isPrivProt acc then some []
      else match key with
        | .propIdent sym => do
            let it ← methodToBinding className scope sym kind isStatic f
            some [it]
        | .propOther => some []
  | .classProp acc key ann isStatic isOptional =>
      if isPrivProt acc then some []
      else match key with
        | .propIdent sym => do
            let it ← propToBinding className scope sym isStatic isOptional ann
            some [it]
        | .propOther => some []
  | .privateMethod => some []
  | .privateProp => some []
  | .unsupportedMember => none

/-- The member loop of `class_to_binding`. -/
def classMemberItems (className : String) (scope : List String) :
    List ClassMember → Option (List ForeignItemM)
  | [] => some []
  | m :: rest => do
      let items ← classMemberItem className scope m
      let restItems ← classMemberItems className scope rest
      some (items ++ restItems)

/-- `decl.rs::class_to_binding`: one opaque type (with an `extends` attribute
when the superclass expression is a simple identifier), then the lowered
members.  A constructor member whose key is the identifier `constructor` is
named `new`; any other identifier key is sanitized and used as is; a
constructor whose key is not an identifier panics (`as_ident().unwrap()`). -/
def classToBinding (c : ClassDeclM) : Option (List ForeignItemM) := do
  let scope := c.typeParams.map sanitizeSym
  let clazz := tyToBinding c.ident
  let clazz := match clazz with
    | .typeItem attrs n =>
        ForeignItemM.typeItem
          (attrs ++ (match c.superClass with
            | some (.superIdent s) => [WAttr.extendsAttr (sanitizeSym s)]
            | _ => []))
          n
    | other => other
  let className := sanitizeSym c.ident
  let members ← classMemberItems className scope c.body
  some (clazz :: members)


/-! ## Declarations and module items (`swc` `Decl` / `ModuleItem`,
restricted as `decl.rs` / `module.rs` handle them) -/

mutual
/-- `swc` `Decl`.  A variable declaration carries its declarators' name
patterns (`decl_to_items` asserts there is exactly one); an enum hits
`todo!()`. -/
inductive DeclM where
  | classD (c : ClassDeclM)
  | fnD (ident : String) (f : FunctionM)
  | varD (decls : List PatM)
  | typeAliasD (ident : String) (typeParams : List String) (ann : TsType)
  | interfaceD (ident : String) (typeParams : List String) (body : TsTypeElems)
  | enumD (ident : String)
  | tsModuleD (m : TsModuleDeclM)

/-- A `TsModuleDecl`: its (identifier or string) name and optional body. -/
inductive TsModuleDeclM where
  | mk (ident : String) (body : TsNamespaceBodyOpt)

/-- The optional body of a TS module: absent, a module block, or a namespace
alias declaration (unsupported). -/
inductive TsNamespaceBodyOpt where
  | none
  | moduleBlock (body : ModuleItems)
  | namespaceDecl

/-- A list of module items (first-order). -/
inductive ModuleItems where
  | nil
  | cons (i : ModuleItemM) (rest : ModuleItems)

/-- A `ModuleItem`, restricted to the arms `module_as_binding`
distinguishes: a plain declaration statement, an exported declaration, a
default-export-of-expression (carrying `expr.as_ident()`), a namespace export,
any other statement, and the remaining module declarations (named exports,
imports, import-equals, default-export declarations, export-all, TS export
assignments), which the composer ignores. -/
inductive ModuleItemM where
  | stmtDecl (d : DeclM)
  | exportDecl (d : DeclM)
  | exportDefaultExpr (identName : Option String)
  | tsNamespaceExport (ident : String)
  | stmtOther
  | otherModuleDecl
end

/-- `decl.rs::decl_ident`. -/
def declIdent : DeclM → Option String
  | .classD c => some c.ident
  | .fnD n _ => some n
  | .varD ds =>
      match ds.head? with
      | some (.identPat s _ _) => some s
      | _ => none
  | .typeAliasD n _ _ => some n
  | .interfaceD n _ _ => some n
  | .enumD n => some n
  | .tsModuleD (.mk n _) => some n

/-- `decl.rs::decl_to_items`: classes, functions, variables, type aliases and
interfaces lower to foreign items; enums hit `todo!()`; TS modules produce no
foreign items here (they are composed separately). -/
def declToItems : DeclM → Option (List ForeignItemM)
  | .classD c => classToBinding c
  | .fnD sym f => do
      let sig ← functionSignature (sanitizeSym sym) f
      some [.fnItem [] sig]
  | .varD ds =>
      match ds with
      | [d] => do
          let (ident, ty) ← patToPatType d
          some [.staticItem [.jsName ident] ident ty]
      | _ => none
  | .typeAliasD sym tps ty =>
      (match tyToBinding sym with
       | .typeItem attrs name => do
           let elems ← (match ty with
             | .typeLit members =>
                 tyElemsToBinding name (tps.map sanitizeSym) members
             | _ => some [])
           some (ForeignItemM.typeItem attrs name :: elems)
       | _ => none)
  | .interfaceD sym tps body =>
      (match tyToBinding sym with
       | .typeItem attrs name => do
           let elems ← tyElemsToBinding name (tps.map sanitizeSym) body
           let elems := elems.map (byeByeItem (tps.map sanitizeSym))
           some (ForeignItemM.typeItem attrs name :: elems)
       | _ => none)
  | .enumD _ => none
  | .tsModuleD _ => some []

/-! ## Module composition (`module.rs::module_as_binding`,
`decl.rs::ts_module_to_binding`, `module.rs::ApplyNamespace`) -/

mutual
/-- A `syn::Item` as produced by the composer: the `use` preamble items, an
attributed extern block, or a nested module produced from a TS namespace. -/
inductive ItemM where
  | useWasmBindgenPrelude
  | useSuperStar
  | foreignMod (items : List ForeignItemM)
  | modItem (ident : String) (content : Items)

/-- A list of items (first-order). -/
inductive Items where
  | nil
  | cons (i : ItemM) (rest : Items)
end

deriving instance DecidableEq for ItemM, Items

/-- Append two item lists. -/
def Items.append : Items → Items → Items
  | .nil, t => t
  | .cons i r, t => .cons i (Items.append r t)

/-- Build an item list from an ordinary list. -/
def Items.ofList : List ItemM → Items
  | [] => .nil
  | i :: r => .cons i (Items.ofList r)

/-- `ApplyNamespace` on an attribute list: the first `js_namespace = [..]`
attribute gets the namespace segment prepended in place; if there is none, a
`js_namespace = [ns]` attribute is appended. -/
def applyNsAttrsGo (ns : String) : List WAttr → Option (List WAttr)
  | [] => none
  | .jsNamespace segs :: rest => some (.jsNamespace (ns :: segs) :: rest)
  | a :: rest => (applyNsAttrsGo ns rest).map (a :: ·)

/-- `ApplyNamespace::visit_foreign_item_mut` over an attribute list. -/
def applyNsAttrs (ns : String) (attrs : List WAttr) : List WAttr :=
  match applyNsAttrsGo ns attrs with
  | some l => l
  | none => attrs ++ [.jsNamespace [ns]]

/-- `ApplyNamespace` on one foreign item. -/
def applyNsFI (ns : String) : ForeignItemM → ForeignItemM
  | .fnItem a s => .fnItem (applyNsAttrs ns a) s
  | .staticItem a n t => .staticItem (applyNsAttrs ns a) n t
  | .typeItem a n => .typeItem (applyNsAttrs ns a) n

mutual
/-- `ApplyNamespace::visit_item_mut` (default traversal): reaches the foreign
items of extern blocks, also inside nested modules; `use` items have none. -/
def applyNsItem (ns : String) : ItemM → ItemM
  | .foreignMod fis => .foreignMod (fis.map (applyNsFI ns))
  | .modItem n c => .modItem n (applyNsItems ns c)
  | .useWasmBindgenPrelude => .useWasmBindgenPrelude
  | .useSuperStar => .useSuperStar

/-- `ApplyNamespace` over an item list. -/
def applyNsItems (ns : String) : Items → Items
  | .nil => .nil
  | .cons i r => .cons (applyNsItem ns i) (applyNsItems ns r)
end

/-- The accumulator of the `module_as_binding` loop. -/
structure MState where
  items : Items
  foreignItems : List ForeignItemM
  defaultIdent : Option String
  declared : List (String × DeclM)
  enclosingNs : Option String

/-- Empty accumulator. -/
def MState.init : MState := ⟨.nil, [], none, [], none⟩

/-- `declared_bodies.get` (the newest insertion for a key wins, insertions are
consed to the front). -/
def lookupDecl (l : List (String × DeclM)) (i : String) : Option DeclM :=
  (l.find? fun p => p.1 = i).map Prod.snd

mutual
/-- One iteration of the `module_as_binding` match, in source arm order:

1. in a module composition, a plain declaration statement (of any kind,
   TS modules included) is only recorded under its identifier;
2. a TS module (exported, or a plain statement in a namespace composition) is
   composed recursively into a nested module item;
3. any other exported declaration — or plain declaration statement in a
   namespace composition — is lowered to foreign items;
4. in a module composition, a default-export-of-expression overwrites the
   remembered default identifier;
5. a namespace export sets the enclosing namespace;
6. other statements and the remaining module declarations are ignored. -/
def moduleStep (ns? : Option String) (st : MState) : ModuleItemM → Option MState
  | .stmtDecl d =>
      match ns? with
      | none =>
          some { st with declared :=
            match declIdent d with
            | some i => (i, d) :: st.declared
            | none => st.declared }
      | some _ =>
          match d with
          | .tsModuleD m => do
              let mi ← tsModuleToBinding m
              some { st with items := st.items.append (match mi with
                | some i => .cons i .nil
                | none => .nil) }
          | _ => do
              let fis ← declToItems d
              some { st with foreignItems := st.foreignItems ++ fis }
  | .exportDecl d =>
      (match d with
       | .tsModuleD m => do
           let mi ← tsModuleToBinding m
           some { st with items := st.items.append (match mi with
             | some i => .cons i .nil
             | none => .nil) }
       | _ => do
           let fis ← declToItems d
           some { st with foreignItems := st.foreignItems ++ fis })
  | .exportDefaultExpr e =>
      match ns? with
      | none => some { st with defaultIdent := e }
      | some _ => some st
  | .tsNamespaceExport s => some { st with enclosingNs := some s }
  | .stmtOther => some st
  | .otherModuleDecl => some st

/-- The loop of `module_as_binding`. -/
def moduleFold (ns? : Option String) (st : MState) : ModuleItems → Option MState
  | .nil => some st
  | .cons it rest => do
      let st' ← moduleStep ns? st it
      moduleFold ns? st' rest

/-- `decl.rs::ts_module_to_binding`: a module block is composed as a namespace
(with the raw module name); a namespace alias only emits a diagnostic and a
missing body yields nothing; the result is wrapped in a `pub mod <name>Mod`. -/
def tsModuleToBinding : TsModuleDeclM → Option (Option ItemM)
  | .mk rawName body =>
      match body with
      | .moduleBlock b => do
          let items ← moduleAsBinding b (some rawName)
          some (some (.modItem (sanitizeSym rawName ++ "Mod") items))
      | .namespaceDecl => some none
      | .none => some none

/-- `module.rs::module_as_binding`: runs the loop, resolves the
default-export indirection against the recorded unexported declarations,
dedupes the foreign items, wraps them (if any) in an extern block preceded by
`use super::*;` (namespace composition) or the `wasm_bindgen` prelude import
(module composition), and finally applies the namespace (the argument, or a
namespace export encountered in the body) to every item. -/
def moduleAsBinding (body : ModuleItems) (ns? : Option String) :
    Option Items := do
  let st ← moduleFold ns? MState.init body
  let fis ← (match st.defaultIdent with
    | some i =>
        match lookupDecl st.declared i with
        | some d => do
            let extra ← declToItems d
            some (st.foreignItems ++ extra)
        | none => some st.foreignItems
    | none => some st.foreignItems)
  let fis := dedupeItems fis
  let items := st.items.append
    (if fis.isEmpty then .nil
     else .cons (if ns?.isSome then ItemM.useSuperStar else ItemM.useWasmBindgenPrelude)
            (.cons (ItemM.foreignMod fis) .nil))
  some (match ns? <|> st.enclosingNs with
    | some ns => applyNsItems ns items
    | none => items)
end


/-! ## `WasmAbify` over items (the pass as `main.rs` applies it) -/

/-- `WasmAbify` on one foreign item: function signatures are legalized,
static types are legalized, opaque types are untouched. -/
def abifyFI (s : List Ty) : ForeignItemM → ForeignItemM
  | .fnItem a sig => .fnItem a (abifySig s sig)
  | .staticItem a n t => .staticItem a n (abifyType s t)
  | .typeItem a n => .typeItem a n

/-! ## Decimal representation: `Nat.repr` is injective

The renaming loop builds candidate names with `format!("{ident}_{counter}")`,
i.e. with decimal `Nat.repr`; the collision-resolution proofs need the
candidates to be pairwise distinct. -/

/-- Decimal digits of `n`, most significant first. -/
def myDigits (n : Nat) : List Char :=
  if n < 10 then [Nat.digitChar n]
  else myDigits (n / 10) ++ [Nat.digitChar (n % 10)]
decreasing_by exact Nat.div_lt_self (by omega) (by omega)

theorem toDigitsCore_eq_myDigits :
    ∀ (fuel n : Nat) (acc : List Char), n < fuel →
      Nat.toDigitsCore 10 fuel n acc = myDigits n ++ acc := by
  intro fuel
  induction fuel with
  | zero => intro n acc h; omega
  | succ f ih =>
    intro n acc h
    simp only [Nat.toDigitsCore]
    by_cases h10 : n / 10 = 0
    · have hlt : n < 10 := by omega
      rw [if_pos h10, myDigits, if_pos hlt, Nat.mod_eq_of_lt hlt]
      rfl
    · have hge : ¬ n < 10 := by
        intro hc
        exact h10 (Nat.div_eq_of_lt hc)
      rw [if_neg h10, ih (n / 10) _ (by
        have := Nat.div_lt_self (by omega : 0 < n) (by omega : 1 < 10)
        omega)]
      conv_rhs => rw [myDigits, if_neg hge]
      rw [List.append_assoc]
      rfl

theorem natRepr_eq_myDigits (n : Nat) : Nat.repr n = (myDigits n).asString := by
  show (Nat.toDigits 10 n).asString = (myDigits n).asString
  rw [Nat.toDigits, toDigitsCore_eq_myDigits (n + 1) n [] (by omega), List.append_nil]

/-- Decode one decimal digit character. -/
def reprValDigit (c : Char) : Nat := c.toNat - 48

/-- Decode a digit string. -/
def reprVal (l : List Char) : Nat := l.foldl (fun a c => 10 * a + reprValDigit c) 0

theorem reprVal_append (l : List Char) (c : Char) :
    reprVal (l ++ [c]) = 10 * reprVal l + reprValDigit c := by
  unfold reprVal
  rw [List.foldl_append]
  rfl

theorem reprValDigit_digitChar (d : Nat) (h : d < 10) :
    reprValDigit (Nat.digitChar d) = d := by
  interval_cases d <;> rfl

theorem reprVal_myDigits (n : Nat) : reprVal (myDigits n) = n := by
  induction n using Nat.strong_induction_on with
  | _ n ih =>
    by_cases h : n < 10
    · rw [myDigits, if_pos h]
      show 10 * 0 + reprValDigit (Nat.digitChar n) = n
      rw [reprValDigit_digitChar n h]
      omega
    · rw [myDigits, if_neg h, reprVal_append,
        ih (n / 10) (Nat.div_lt_self (by omega) (by omega)),
        reprValDigit_digitChar _ (Nat.mod_lt n (by omega))]
      omega

theorem myDigits_ne_nil (n : Nat) : myDigits n ≠ [] := by
  rw [myDigits]
  by_cases h : n < 10
  · rw [if_pos h]; simp
  · rw [if_neg h]; simp

theorem natRepr_injective {m n : Nat} (h : Nat.repr m = Nat.repr n) : m = n := by
  rw [natRepr_eq_myDigits, natRepr_eq_myDigits] at h
  have hd : myDigits m = myDigits n := congrArg String.data h
  calc m = reprVal (myDigits m) := (reprVal_myDigits m).symm
    _ = reprVal (myDigits n) := by rw [hd]
    _ = n := reprVal_myDigits n

theorem natRepr_ne_empty (n : Nat) : Nat.repr n ≠ "" := by
  rw [natRepr_eq_myDigits]
  intro h
  exact myDigits_ne_nil n (congrArg String.data h)

/-! ## Properties of the renaming loop -/

theorem string_append_data (a b : String) : (a ++ b).data = a.data ++ b.data := rfl

theorem string_append_left_cancel {a b c : String} (h : a ++ b = a ++ c) : b = c := by
  have hd : a.data ++ b.data = a.data ++ c.data := by
    rw [← string_append_data, ← string_append_data, h]
  have h2 := List.append_cancel_left hd
  cases b with
  | mk db => cases c with
    | mk dc => exact congrArg String.mk h2

theorem ne_append_underscore (b s : String) : b ≠ b ++ "_" ++ s := by
  intro h
  have hd := congrArg String.data h
  rw [string_append_data, string_append_data] at hd
  have hlen := congrArg List.length hd
  rw [List.length_append, List.length_append] at hlen
  have h1 : ("_" : String).data.length = 1 := rfl
  omega

theorem dedupeCandidate_injective (base : String) :
    Function.Injective (dedupeCandidate base) := by
  intro i j h
  match i, j with
  | 0, 0 => rfl
  | 0, k + 1 =>
      exfalso
      simp only [dedupeCandidate] at h
      exact ne_append_underscore base (Nat.repr (k + 1)) h
  | k + 1, 0 =>
      exfalso
      simp only [dedupeCandidate] at h
      exact ne_append_underscore base (Nat.repr (k + 1)) h.symm
  | i + 1, j + 1 =>
      simp only [dedupeCandidate] at h
      have h2 : Nat.repr (i + 1) = Nat.repr (j + 1) := string_append_left_cancel h
      have := natRepr_injective h2
      omega

/-- Somewhere among the first `taken.length + 1` candidates there is a free
one (they are pairwise distinct). -/
theorem exists_free_candidate (taken : List String) (base : String) :
    ∃ j, j ≤ taken.length ∧ dedupeCandidate base j ∉ taken := by
  by_contra hc
  push_neg at hc
  have hsub : ((List.range (taken.length + 1)).map (dedupeCandidate base)) ⊆ taken := by
    intro x hx
    obtain ⟨j, hj, rfl⟩ := List.mem_map.mp hx
    exact hc j (by simpa using Nat.lt_succ_iff.mp (List.mem_range.mp hj))
  have hnd : ((List.range (taken.length + 1)).map (dedupeCandidate base)).Nodup :=
    (List.nodup_range _).map (dedupeCandidate_injective base)
  have hle := (hnd.subperm hsub).length_le
  simp at hle

theorem freshFrom_not_mem (taken : List String) (base : String) :
    ∀ (fuel k : Nat), (∃ j, k ≤ j ∧ j < k + fuel ∧ dedupeCandidate base j ∉ taken) →
      freshFrom taken base fuel k ∉ taken := by
  intro fuel
  induction fuel with
  | zero =>
    intro k ⟨j, h1, h2, _⟩
    omega
  | succ f ih =>
    intro k ⟨j, h1, h2, h3⟩
    rw [freshFrom]
    by_cases hk : dedupeCandidate base k ∈ taken
    · rw [if_pos hk]
      refine ih (k + 1) ⟨j, ?_, by omega, h3⟩
      rcases Nat.eq_or_lt_of_le h1 with rfl | hlt
      · exact absurd hk h3
      · omega
    · rw [if_neg hk]; exact hk

theorem freshName_not_mem (taken : List String) (base : String) :
    freshName taken base ∉ taken := by
  obtain ⟨j, hj, hfree⟩ := exists_free_candidate taken base
  exact freshFrom_not_mem taken base (taken.length + 1) 0 ⟨j, by omega, by omega, hfree⟩

/-- The loop returns the first free candidate. -/
theorem freshFrom_exact (taken : List String) (base : String) :
    ∀ (fuel k m : Nat), k ≤ m → m < k + fuel →
      (∀ j, k ≤ j → j < m → dedupeCandidate base j ∈ taken) →
      dedupeCandidate base m ∉ taken →
      freshFrom taken base fuel k = dedupeCandidate base m := by
  intro fuel
  induction fuel with
  | zero => intro k m h1 h2; omega
  | succ f ih =>
    intro k m h1 h2 hall hfree
    rw [freshFrom]
    rcases Nat.eq_or_lt_of_le h1 with rfl | hlt
    · rw [if_neg hfree]
    · rw [if_pos (hall k le_rfl hlt)]
      exact ih (k + 1) m hlt (by omega) (fun j hj1 hj2 => hall j (by omega) hj2) hfree

/-- A base name that is not yet registered is never renamed. -/
theorem freshName_of_not_mem (taken : List String) (base : String)
    (h : base ∉ taken) : freshName taken base = base :=
  freshFrom_exact taken base (taken.length + 1) 0 0 le_rfl (by omega)
    (by omega) h


/-! ## Shape facts about the ABI-legal set -/

/-- Is the type a path type? -/
def isPathTy : Ty → Bool
  | .path _ _ => true
  | _ => false

/-- The base chain of `wasm_abi_set` (builtins, catalog types, custom types). -/
def wasmAbiBase (custom : List String) : List Ty :=
  sliceableBuiltins ++ nonSliceableBuiltins ++ knownTys ++ custom.map bareTy

theorem wasmAbiBase_shape (custom : List String) :
    ∀ t ∈ wasmAbiBase custom, isPathTy t = true ∨ t = unitTy := by
  intro t ht
  rcases List.mem_append.mp ht with h | h
  · rcases List.mem_append.mp h with h | h
    · rcases List.mem_append.mp h with h | h
      · fin_cases h <;> exact Or.inl rfl
      · fin_cases h <;> first | exact Or.inl rfl | exact Or.inr rfl
    · obtain ⟨a, _, rfl⟩ := List.mem_map.mp h
      exact Or.inl rfl
  · obtain ⟨a, _, rfl⟩ := List.mem_map.mp h
    exact Or.inl rfl

theorem jsValue_mem_wasmAbiSet (custom : List String) :
    jsValue ∈ wasmAbiSet custom := by
  simp [wasmAbiSet]

/-- A reference to a callable trait object is never a member of the ABI-legal
closed set. -/
theorem refDynFn_not_mem_wasmAbiSet (custom : List String) (ins : Tys) :
    Ty.ref (.dynFn ins) ∉ wasmAbiSet custom := by
  intro hmem
  have hbase : wasmAbiSet custom =
      wasmAbiBase custom ++ ((wasmAbiBase custom).map .ref ++
        ((wasmAbiBase custom).map optionTy ++
          ((sliceableBuiltins ++ knownTys ++ custom.map bareTy).map boxedSliceTy ++
            ((sliceableBuiltins ++ knownTys ++ custom.map bareTy).map
                (fun t => optionTy (boxedSliceTy t)) ++ [jsValue])))) := by
    simp [wasmAbiSet, wasmAbiBase, List.append_assoc]
  rw [hbase] at hmem
  rcases List.mem_append.mp hmem with h | h
  · rcases wasmAbiBase_shape custom _ h with h' | h'
    · simp [isPathTy] at h'
    · simp [unitTy] at h'
  rcases List.mem_append.mp h with h | h
  · obtain ⟨a, ha, heq⟩ := List.mem_map.mp h
    have hdyn : a = Ty.dynFn ins := by injection heq
    rcases wasmAbiBase_shape custom _ ha with h' | h' <;> rw [hdyn] at h'
    · simp [isPathTy] at h'
    · simp [unitTy] at h'
  rcases List.mem_append.mp h with h | h
  · obtain ⟨a, _, heq⟩ := List.mem_map.mp h
    simp [optionTy] at heq
  rcases List.mem_append.mp h with h | h
  · obtain ⟨a, _, heq⟩ := List.mem_map.mp h
    simp [boxedSliceTy] at heq
  rcases List.mem_append.mp h with h | h
  · obtain ⟨a, _, heq⟩ := List.mem_map.mp h
    simp [optionTy] at heq
  · simp [jsValue] at h

/-- If the type itself is a reference to a trait object, the nested finder
returns it unchanged. -/
theorem nestedTyFind_refDynFn (ty : Ty) (h : isRefDynFn ty = true) :
    nestedTyFind ty = some ty := by
  match ty, h with
  | .ref e, _ => rfl

/-- `WasmAbify` on a single type lands in the set unless it keeps a callable
reference. -/
theorem abifyType_mem (s : List Ty) (hjs : jsValue ∈ s) (t : Ty) :
    abifyType s t ∈ s ∨ isRefDynFn (abifyType s t) = true := by
  unfold abifyType
  by_cases h1 : isRefDynFn t = true
  · rw [if_pos h1]; exact Or.inr h1
  · rw [if_neg h1]
    by_cases h2 : t ∈ s
    · rw [if_pos h2]; exact Or.inl h2
    · rw [if_neg h2]; exact Or.inl hjs

/-- On a type that is not a callable reference, `WasmAbify` lands in the
set. -/
theorem abifyType_mem_of_not_refDyn (s : List Ty) (hjs : jsValue ∈ s) (t : Ty)
    (h1 : isRefDynFn t ≠ true) : abifyType s t ∈ s := by
  unfold abifyType
  rw [if_neg h1]
  by_cases h2 : t ∈ s
  · rw [if_pos h2]; exact h2
  · rw [if_neg h2]; exact hjs

/-- A legalized return type is always a member of the set. -/
theorem abifyReturn_mem (s : List Ty) (hjs : jsValue ∈ s) (ty u : Ty)
    (h : abifyReturn s (some ty) = some u) : u ∈ s := by
  rw [abifyReturn] at h
  split at h
  · injection h with h; rw [← h]; exact hjs
  · rename_i hne
    injection h with h
    rw [← h]
    refine abifyType_mem_of_not_refDyn s hjs ty fun h1 => ?_
    match ty, h1 with
    | .ref (.dynFn ins), _ => exact hne ins rfl

/-! ## Claim C1 -/

/-- **C1, counterexample.**  The claim says that after ABI legalization every
parameter type of every extern function is a member of the closed
boundary-safe set.  A parameter whose type is a borrowed callable
(`&dyn Fn()`) is left untouched by `WasmAbify` and is *not* a member of that
set, so the claim fails on the signature `fn f(cb: &dyn Fn())`. -/
theorem c1_counterexample :
    (abifySig (wasmAbiSet []) ⟨"f", [("cb", .ref (.dynFn .nil))], none⟩).inputs =
      [("cb", Ty.ref (.dynFn .nil))] ∧
    Ty.ref (.dynFn .nil) ∉ wasmAbiSet [] :=
  ⟨rfl, refDynFn_not_mem_wasmAbiSet [] .nil⟩

/-- **C1, amended.**  After `WasmAbify`, every parameter type and every
extern-static type is a member of the ABI-legal closed set **or a reference to
a callable**, and every return type is a member of the set. -/
theorem c1_abi_closure (custom : List String) (sig : FnSig) (attrs : List WAttr)
    (n : String) (t : Ty) :
    (∀ p ∈ (abifySig (wasmAbiSet custom) sig).inputs,
        p.2 ∈ wasmAbiSet custom ∨ isRefDynFn p.2 = true) ∧
    (∀ u, (abifySig (wasmAbiSet custom) sig).output = some u →
        u ∈ wasmAbiSet custom) ∧
    (∀ a b ty, abifyFI (wasmAbiSet custom) (.staticItem attrs n t) =
        .staticItem a b ty → ty ∈ wasmAbiSet custom ∨ isRefDynFn ty = true) := by
  have hjs := jsValue_mem_wasmAbiSet custom
  refine ⟨?_, ?_, ?_⟩
  · intro p hp
    simp only [abifySig, List.mem_map] at hp
    obtain ⟨⟨pn, pt⟩, _, rfl⟩ := hp
    exact abifyType_mem _ hjs pt
  · intro u hu
    simp only [abifySig] at hu
    match hsig : sig.output with
    | Option.none =>
      rw [hsig] at hu
      simp [abifyReturn] at hu
    | Option.some ty =>
      rw [hsig] at hu
      exact abifyReturn_mem _ hjs ty u hu
  · intro a b ty h
    simp only [abifyFI] at h
    injection h with _ _ hty
    rw [← hty]
    exact abifyType_mem _ hjs t

/-- **C1 witness.** -/
theorem c1_abi_closure_witness :
    (Ty.ref (.dynFn .nil) ∈ wasmAbiSet [] ∨ isRefDynFn (Ty.ref (.dynFn .nil)) = true) ∧
    jsValue ∈ wasmAbiSet [] := by
  have h := c1_abi_closure [] ⟨"f", [("cb", .ref (.dynFn .nil))], some (.ref (.dynFn .nil))⟩
    [] "x" jsValue
  exact ⟨h.1 ("cb", .ref (.dynFn .nil)) (List.mem_singleton.mpr rfl), h.2.1 jsValue rfl⟩


/-- Every member of the ABI-legal set is a path, the unit type, or a reference
to a path or the unit type. -/
theorem wasmAbiSet_shape (custom : List String) :
    ∀ t ∈ wasmAbiSet custom, isPathTy t = true ∨ t = unitTy ∨
      ∃ b, t = Ty.ref b ∧ (isPathTy b = true ∨ b = unitTy) := by
  intro t ht
  have hbase : wasmAbiSet custom =
      wasmAbiBase custom ++ ((wasmAbiBase custom).map .ref ++
        ((wasmAbiBase custom).map optionTy ++
          ((sliceableBuiltins ++ knownTys ++ custom.map bareTy).map boxedSliceTy ++
            ((sliceableBuiltins ++ knownTys ++ custom.map bareTy).map
                (fun t => optionTy (boxedSliceTy t)) ++ [jsValue])))) := by
    simp [wasmAbiSet, wasmAbiBase, List.append_assoc]
  rw [hbase] at ht
  rcases List.mem_append.mp ht with h | h
  · rcases wasmAbiBase_shape custom _ h with h' | h'
    · exact Or.inl h'
    · exact Or.inr (Or.inl h')
  rcases List.mem_append.mp h with h | h
  · obtain ⟨a, ha, rfl⟩ := List.mem_map.mp h
    exact Or.inr (Or.inr ⟨a, rfl, wasmAbiBase_shape custom _ ha⟩)
  rcases List.mem_append.mp h with h | h
  · obtain ⟨a, _, rfl⟩ := List.mem_map.mp h
    exact Or.inl rfl
  rcases List.mem_append.mp h with h | h
  · obtain ⟨a, _, rfl⟩ := List.mem_map.mp h
    exact Or.inl rfl
  rcases List.mem_append.mp h with h | h
  · obtain ⟨a, _, rfl⟩ := List.mem_map.mp h
    exact Or.inl rfl
  · rw [List.mem_singleton.mp h]
    exact Or.inl rfl

/-- A nonempty tuple type is never a member of the ABI-legal set. -/
theorem tupCons_not_mem_wasmAbiSet (custom : List String) (a : Ty) (r : Tys) :
    Ty.tup (.cons a r) ∉ wasmAbiSet custom := by
  intro hmem
  rcases wasmAbiSet_shape custom _ hmem with h | h | ⟨b, hb, _⟩
  · simp [isPathTy] at h
  · simp [unitTy] at h
  · cases hb

/-! ## Claim C2 -/

/-- **C2, counterexample.**  The claim says the legalization rewrite leaves a
reference to a callable untouched in return position as well.  In return
position `WasmAbify` replaces it with `JsValue` ("Can't return references"):
on `fn f() -> &dyn Fn()` the return type becomes `JsValue`, not the callable
reference. -/
theorem c2_counterexample :
    abifySig (wasmAbiSet []) ⟨"f", [], some (.ref (.dynFn .nil))⟩ =
      ⟨"f", [], some jsValue⟩ ∧
    some jsValue ≠ some (Ty.ref (.dynFn .nil)) :=
  ⟨rfl, by decide⟩

/-- **C2, amended.**  In parameter position a reference to a callable is left
untouched, a member of the closed set is left untouched, and everything else
becomes `JsValue`; in return position a type whose nested core (through
`Option` / boxed-slice wrappers) is a reference to a callable becomes
`JsValue` instead of being kept. -/
theorem c2_legalize_rule (s : List Ty) (t : Ty) :
    (isRefDynFn t = true → abifyType s t = t) ∧
    (t ∈ s → isRefDynFn t = false → abifyType s t = t) ∧
    (t ∉ s → isRefDynFn t = false → abifyType s t = jsValue) ∧
    (∀ ins, nestedTyFind t = some (.ref (.dynFn ins)) →
        abifyReturn s (some t) = some jsValue) ∧
    (∀ sig : FnSig,
        (abifySig s sig).inputs = sig.inputs.map fun p => (p.1, abifyType s p.2)) := by
  refine ⟨?_, ?_, ?_, ?_, fun _ => rfl⟩
  · intro h1
    unfold abifyType
    rw [if_pos h1]
  · intro h2 h1
    unfold abifyType
    rw [if_neg (by simp [h1]), if_pos h2]
  · intro h2 h1
    unfold abifyType
    rw [if_neg (by simp [h1]), if_neg h2]
  · intro ins h
    rw [abifyReturn, h]

/-- **C2 witness.** -/
theorem c2_legalize_rule_witness :
    abifyType (wasmAbiSet []) (.ref (.dynFn .nil)) = .ref (.dynFn .nil) ∧
    abifyType (wasmAbiSet []) jsValue = jsValue ∧
    abifyType (wasmAbiSet []) (.tup (.cons jsValue .nil)) = jsValue ∧
    abifyReturn (wasmAbiSet []) (some (.ref (.dynFn .nil))) = some jsValue :=
  ⟨(c2_legalize_rule (wasmAbiSet []) _).1 rfl,
   (c2_legalize_rule (wasmAbiSet []) _).2.1 (jsValue_mem_wasmAbiSet []) rfl,
   (c2_legalize_rule (wasmAbiSet []) _).2.2.1
     (tupCons_not_mem_wasmAbiSet [] jsValue .nil) rfl,
   (c2_legalize_rule (wasmAbiSet []) _).2.2.2.1 .nil rfl⟩

/-! ## Claim C8 -/

theorem abifyType_idem (s : List Ty) (hjs : jsValue ∈ s) (t : Ty) :
    abifyType s (abifyType s t) = abifyType s t := by
  unfold abifyType
  by_cases h1 : isRefDynFn t = true
  · rw [if_pos h1, if_pos h1]
  · rw [if_neg h1]
    by_cases h2 : t ∈ s
    · rw [if_pos h2, if_neg h1, if_pos h2]
    · rw [if_neg h2, if_neg (by decide : ¬ isRefDynFn jsValue = true), if_pos hjs]

theorem abifyReturn_jsValue (s : List Ty) (hjs : jsValue ∈ s) :
    abifyReturn s (some jsValue) = some jsValue := by
  rw [abifyReturn]
  show some (abifyType s jsValue) = some jsValue
  unfold abifyType
  rw [if_neg (by decide : ¬ isRefDynFn jsValue = true), if_pos hjs]

theorem abifyReturn_idem (s : List Ty) (hjs : jsValue ∈ s) (r : Option Ty) :
    abifyReturn s (abifyReturn s r) = abifyReturn s r := by
  match r with
  | none => rfl
  | some ty =>
    rcases hInner : abifyReturn s (some ty) with _ | u
    · rfl
    · rw [abifyReturn] at hInner
      split at hInner
      · injection hInner with h
        rw [← h]
        exact abifyReturn_jsValue s hjs
      · rename_i hne
        injection hInner with h
        by_cases h1 : isRefDynFn ty = true
        · exfalso
          match ty, h1 with
          | .ref (.dynFn ins), _ => exact hne ins rfl
        · by_cases h2 : ty ∈ s
          · have hu : u = ty := by
              rw [← h]; unfold abifyType; rw [if_neg h1, if_pos h2]
            rw [hu, abifyReturn]
            split
            · rename_i ins heq
              exact absurd heq (hne ins)
            · unfold abifyType
              rw [if_neg h1, if_pos h2]
          · have hu : u = jsValue := by
              rw [← h]; unfold abifyType; rw [if_neg h1, if_neg h2]
            rw [hu]
            exact abifyReturn_jsValue s hjs

/-- **C8.**  The ABI legalization rewrite is a fixed point on its own output:
legalizing a type, a signature or an item twice equals legalizing it once. -/
theorem c8_idempotent (custom : List String) (t : Ty) (sig : FnSig)
    (fi : ForeignItemM) :
    abifyType (wasmAbiSet custom) (abifyType (wasmAbiSet custom) t) =
      abifyType (wasmAbiSet custom) t ∧
    abifySig (wasmAbiSet custom) (abifySig (wasmAbiSet custom) sig) =
      abifySig (wasmAbiSet custom) sig ∧
    abifyFI (wasmAbiSet custom) (abifyFI (wasmAbiSet custom) fi) =
      abifyFI (wasmAbiSet custom) fi := by
  have hjs := jsValue_mem_wasmAbiSet custom
  have hIn : ∀ (l : List (String × Ty)),
      ((l.map fun p => (p.1, abifyType (wasmAbiSet custom) p.2)).map
          fun p => (p.1, abifyType (wasmAbiSet custom) p.2)) =
        l.map fun p => (p.1, abifyType (wasmAbiSet custom) p.2) := by
    intro l
    induction l with
    | nil => rfl
    | cons p rest ih =>
      simp only [List.map_cons, ih, List.cons.injEq, and_true]
      rw [abifyType_idem _ hjs]
  have hsig : ∀ s : FnSig,
      abifySig (wasmAbiSet custom) (abifySig (wasmAbiSet custom) s) =
        abifySig (wasmAbiSet custom) s := by
    intro s
    show FnSig.mk _ _ _ = FnSig.mk _ _ _
    rw [FnSig.mk.injEq]
    exact ⟨rfl, hIn s.inputs, abifyReturn_idem _ hjs s.output⟩
  refine ⟨abifyType_idem _ hjs t, hsig sig, ?_⟩
  match fi with
  | .fnItem a s => simp only [abifyFI]; rw [hsig s]
  | .staticItem a n ty => simp only [abifyFI]; rw [abifyType_idem _ hjs ty]
  | .typeItem a n => rfl


/-! ## Claim C3 -/

/-- **C3, counterexample.**  The claim says a two-member union with
`undefined` / `null` maps to `Optional` *regardless of which member is written
first*, and that non-representable unions emit a diagnostic.  The source only
inspects the **second** member: `undefined | number` maps to `JsValue`, not
`Option<f64>`; and the three-member union of the spec's own scenario maps to
`JsValue` with **no** diagnostic. -/
theorem c3_counterexample :
    tsTypeToTypeD (.unionType (.cons (.kw .undefined) (.cons (.kw .number) .nil))) =
      some (jsValue, []) ∧
    (some (jsValue, ([] : List String)) ≠
      some (optionTy (primTy "f64"), ([] : List String))) ∧
    tsTypeToTypeD (.unionType (.cons (.typeRef (.ident "SomeUnknownUnion") .none)
      (.cons (.kw .number) (.cons (.kw .string) .nil)))) = some (jsValue, []) :=
  ⟨rfl, by decide, rfl⟩

/-- **C3, amended.**  A union of exactly two members whose **second** member
is the `undefined` or `null` keyword maps to `Optional` of the first member's
mapping (with that member's diagnostics); every other union — more than two
members, fewer than two, or a two-member union whose second member is not
`undefined`/`null` — maps to `JsValue` with no diagnostic. -/
theorem c3_union_rule (ts : TsTypes) :
    tsTypeToTypeD (.unionType ts) =
      match ts with
      | .cons a (.cons b .nil) =>
          if isNullOrUndefinedKw b = true then
            (tsTypeToTypeD a).map fun p => (optionTy p.1, p.2)
          else some (jsValue, [])
      | _ => some (jsValue, []) := by
  match ts with
  | .nil => rfl
  | .cons a .nil => rfl
  | .cons a (.cons b (.cons c r)) => rfl
  | .cons a (.cons b .nil) =>
    by_cases h : isNullOrUndefinedKw b = true
    · rcases ha : tsTypeToTypeD a with _ | ⟨ta, d⟩ <;>
        simp [tsTypeToTypeD, h, ha]
    · simp [tsTypeToTypeD, h]

/-! ## Claim C7 -/

/-- **C7, counterexample.**  The claim says repeated `..` segments are
collapsed to a single "up" marker, which would make `../../x` and `../x`
translate identically.  They do not: the first `..` contributes two `super`s
and each further `..` contributes one more. -/
theorem c7_counterexample :
    importPrefixToIdents "../x" = ["super", "super", "xMod"] ∧
    importPrefixToIdents "../../x" = ["super", "super", "super", "xMod"] ∧
    importPrefixToIdents "../../x" ≠ importPrefixToIdents "../x" :=
  ⟨rfl, rfl, by decide⟩

/-- **C7, amended.**  `.` becomes one `super`; the **first** `..` becomes two
`super`s and every subsequent `..` one further `super` (nothing is
collapsed); any other segment becomes its name with a trailing `.js` stripped
and `Mod` appended; `import_path_to_type_path_prefix` produces the same names
as path segments. -/
theorem c7_import_prefix_rule :
    (∀ rest b, importPrefixSegs ("." :: rest) b = "super" :: importPrefixSegs rest b) ∧
    (∀ rest, importPrefixSegs (".." :: rest) true =
        "super" :: "super" :: importPrefixSegs rest false) ∧
    (∀ rest, importPrefixSegs (".." :: rest) false =
        "super" :: importPrefixSegs rest false) ∧
    (∀ seg rest b, seg ≠ "." → seg ≠ ".." →
        importPrefixSegs (seg :: rest) b = importSegIdent seg :: importPrefixSegs rest b) ∧
    (∀ path, importPrefixToIdents path = importPrefixSegs (splitSlash path) true) ∧
    (∀ path, importPathToTypePathPrefix path = segsOfNames (importPrefixToIdents path)) := by
  refine ⟨fun rest b => ?_, fun rest => ?_, fun rest => ?_,
    fun seg rest b h1 h2 => ?_, fun _ => rfl, fun _ => rfl⟩
  · simp [importPrefixSegs]
  · simp [importPrefixSegs]
  · simp [importPrefixSegs]
  · simp [importPrefixSegs, h1, h2]

/-- **C7 witness.** -/
theorem c7_import_prefix_rule_witness :
    importPrefixSegs ["foo.js"] true = [importSegIdent "foo.js"] ∧
    importPrefixToIdents "./a" = ["super", "aMod"] := by
  refine ⟨?_, rfl⟩
  have h := c7_import_prefix_rule.2.2.2.1 "foo.js" [] true (by decide) (by decide)
  rw [h]
  rfl

/-! ## Claim C10 -/

/-- Matches `::std::option::Option<t>`, returning `t`. -/
def isOptionOf : Ty → Option Ty
  | .path true (.cons "std" .nil (.cons "option" .nil
      (.cons "Option" (.cons t .nil) .nil))) => some t
  | _ => none

/-- Is the type an `Option` directly wrapping an `Option`? -/
def isDoubleOption (t : Ty) : Bool :=
  match isOptionOf t with
  | some u => (isOptionOf u).isSome
  | none => false

/-- **C10, counterexample.**  The claim concludes that no emitted signature
contains a doubly-wrapped `Optional`.  The cleaner flattens only one level per
node and does not re-examine a node after replacing it: on
`Option<Option<Option<bool>>>` it produces `Option<Option<bool>>`, which is
still a doubly-wrapped `Optional`. -/
theorem c10_counterexample :
    cleanerTy (optionTy (optionTy (optionTy (primTy "bool")))) =
      optionTy (optionTy (primTy "bool")) ∧
    isDoubleOption (cleanerTy (optionTy (optionTy (optionTy (primTy "bool"))))) = true :=
  ⟨rfl, rfl⟩

/-- **C10, amended.**  The final cleanup performs one flattening step per
`Option` node, top-down — `Optional(Optional(T))` becomes
`Optional(cleaned T)` and `Optional(DynamicValue)` becomes `DynamicValue` —
and rewrites every bare single-segment reference to a known string-enum
catalog name into the owned string type; with three or more nested
`Optional`s a doubly-wrapped `Optional` can survive the pass. -/
theorem c10_cleanup_rule (t : Ty) :
    cleanerTy (optionTy (optionTy t)) = optionTy (cleanerTy t) ∧
    cleanerTy (optionTy jsValue) = jsValue ∧
    (∀ n, n ∈ knownStringTypes → cleanerTy (bareTy n) = stringTy) := by
  refine ⟨rfl, rfl, fun n h => ?_⟩
  simp [cleanerTy, bareTy, h]

/-- **C10 witness.** -/
theorem c10_cleanup_rule_witness :
    cleanerTy (optionTy (optionTy (primTy "f64"))) = optionTy (primTy "f64") ∧
    cleanerTy (bareTy "AlignSetting") = stringTy := by
  refine ⟨?_, (c10_cleanup_rule (primTy "f64")).2.2 "AlignSetting" (by decide)⟩
  have h := (c10_cleanup_rule (primTy "f64")).1
  rw [h]
  rfl

/-! ## Claim C6 -/

/-- **C6, counterexample.**  The claim says a class containing a
constructor-shaped member whose key is not literally `constructor` is an
error.  The source lowers such a member like any constructor but keeps its own
(sanitized) name: on `class A { init(); }` (a constructor-shaped member keyed
`init`) processing succeeds and produces a `constructor`-tagged extern
function named `init`. -/
theorem c6_counterexample :
    classToBinding ⟨"A", [], none, [.ctor none (.propIdent "init") []]⟩ =
      some [.typeItem [.jsName "A"] "A",
            .fnItem [.ctorTag] ⟨"init", [], some (bareTy "A")⟩] ∧
    ("init" : String) ≠ "new" :=
  ⟨rfl, by decide⟩

/-- A member whose processing panics makes the whole member loop fail. -/
theorem classMemberItems_none_of_mem (className : String) (scope : List String)
    (body : List ClassMember) (m : ClassMember) (hmem : m ∈ body)
    (hnone : classMemberItem className scope m = none) :
    classMemberItems className scope body = none := by
  induction body with
  | nil => cases hmem
  | cons m' rest ih =>
    rcases List.mem_cons.mp hmem with rfl | hmem'
    · simp [classMemberItems, hnone]
    · rcases h : classMemberItem className scope m' with _ | v <;>
        simp [classMemberItems, h, ih hmem']

/-- A class containing a constructor member whose key is not an identifier
fails to lower (`key.as_ident().unwrap()` panics). -/
theorem classMemberItem_ctor_propOther_none (className : String)
    (scope : List String) (acc : Option Accessibility) (ps : List CtorParam)
    (hacc : isPrivProt acc = false) :
    classMemberItem className scope (.ctor acc .propOther ps) = none := by
  simp [classMemberItem, hacc, PropName.asIdent?]

/-- **C6, amended.**  A constructor member with identifier key `constructor`
lowers to an extern function named `new` returning the class's opaque handle;
a constructor member with any other identifier key lowers the same way but
keeps its sanitized own name (it is *not* an error); a constructor member
whose key is not an identifier is an error (the declaration fails). -/
theorem c6_ctor_lowering (rawClass s : String) (c : ClassDeclM)
    (acc : Option Accessibility) (ps : List CtorParam) :
    (classToBinding ⟨rawClass, [], none, [.ctor none (.propIdent s) []]⟩ =
      some [.typeItem [.jsName rawClass] (sanitizeSym rawClass),
            .fnItem [.ctorTag]
              ⟨if s = "constructor" then "new" else sanitizeSym s, [],
               some (bareTy (sanitizeSym rawClass))⟩]) ∧
    (ClassMember.ctor acc .propOther ps ∈ c.body → isPrivProt acc = false →
        classToBinding c = none) := by
  constructor
  · rfl
  · intro hmem hacc
    have h := classMemberItems_none_of_mem (sanitizeSym c.ident)
      (c.typeParams.map sanitizeSym) c.body _ hmem
      (classMemberItem_ctor_propOther_none _ _ acc ps hacc)
    simp [classToBinding, h]

/-- **C6 witness.** -/
theorem c6_ctor_lowering_witness :
    classToBinding ⟨"B", [], none, [.ctor none (.propIdent "constructor") []]⟩ =
      some [.typeItem [.jsName "B"] "B",
            .fnItem [.ctorTag] ⟨"new", [], some (bareTy "B")⟩] ∧
    classToBinding ⟨"B", [], none, [.ctor none .propOther []]⟩ = none := by
  constructor
  · have h := (c6_ctor_lowering "B" "constructor"
      ⟨"B", [], none, [.ctor none .propOther []]⟩ none []).1
    simpa using h
  · exact (c6_ctor_lowering "B" "constructor"
      ⟨"B", [], none, [.ctor none .propOther []]⟩ none []).2
      (List.mem_singleton.mpr rfl) rfl


/-! ## Claim C5 -/

/-- Generics erasure preserves the "bare in-scope reference" test at the root
of a path (it preserves the segment-list shape and names). -/
theorem byeBareHit_byeByeSegs (scope : List String) (segs : Segs) :
    byeBareHit scope (byeByeSegs scope segs) = byeBareHit scope segs := by
  match segs with
  | .nil => rfl
  | .cons n .nil .nil => rfl
  | .cons n .nil (.cons _ _ _) => rfl
  | .cons n (.cons _ _) .nil => rfl
  | .cons n (.cons _ _) (.cons _ _ _) => rfl

mutual
theorem byeBye_no_bare_ty (scope : List String) :
    ∀ t : Ty, containsBareTy scope (byeByeTy scope t) = false
  | .path lc segs => by
      simp only [byeByeTy]
      by_cases h : byeBareHit scope segs = true
      · rw [if_pos h]; rfl
      · rw [if_neg h]
        simp only [containsBareTy, byeBareHit_byeByeSegs scope segs,
          byeBye_no_bare_segs scope segs, Bool.or_false]
        exact Bool.not_eq_true _ ▸ (Bool.eq_false_iff.mpr h)
  | .ref e => byeBye_no_bare_ty scope e
  | .dynFn ins => byeBye_no_bare_tys scope ins
  | .slice e => byeBye_no_bare_ty scope e
  | .tup es => byeBye_no_bare_tys scope es
  | .paren e => byeBye_no_bare_ty scope e

theorem byeBye_no_bare_segs (scope : List String) :
    ∀ segs : Segs, containsBareSegs scope (byeByeSegs scope segs) = false
  | .nil => rfl
  | .cons n args rest => by
      simp only [byeByeSegs, containsBareSegs, byeBye_no_bare_tys scope args,
        byeBye_no_bare_segs scope rest, Bool.or_false]

theorem byeBye_no_bare_tys (scope : List String) :
    ∀ ts : Tys, containsBareTys scope (byeByeTys scope ts) = false
  | .nil => rfl
  | .cons t r => by
      simp only [byeByeTys, containsBareTys, byeBye_no_bare_ty scope t,
        byeBye_no_bare_tys scope r, Bool.or_false]
end

/-- **C5.**  After the generics-erasure pass, no type, signature or item
contains a bare single-segment argument-free reference to a name in the
generics scope — through all wrappers, for any scope (including a scope
composed from a nested member's own type parameters joined with the enclosing
declaration's). -/
theorem c5_generics_erased (scope : List String) (t : Ty) (sig : FnSig)
    (fi : ForeignItemM) :
    containsBareTy scope (byeByeTy scope t) = false ∧
    containsBareSig scope (byeByeSig scope sig) = false ∧
    (∀ a s, byeByeItem scope fi = .fnItem a s →
        containsBareSig scope s = false) := by
  have hsig : ∀ s : FnSig, containsBareSig scope (byeByeSig scope s) = false := by
    intro s
    simp only [byeByeSig, containsBareSig]
    rw [Bool.or_eq_false_iff]
    constructor
    · rw [List.any_eq_false]
      rintro ⟨n, u⟩ hmem
      simp only [List.mem_map] at hmem
      obtain ⟨⟨n0, u0⟩, _, heq⟩ := hmem
      have hu : u = byeByeTy scope u0 := by
        injection heq with h1 h2
        exact h2.symm
      simp [hu, byeBye_no_bare_ty scope u0]
    · rcases hout : s.output with _ | u
      · rfl
      · exact byeBye_no_bare_ty scope u
  refine ⟨byeBye_no_bare_ty scope t, hsig sig, ?_⟩
  intro a s h
  match fi, h with
  | .fnItem a0 s0, h =>
    simp only [byeByeItem] at h
    injection h with h1 h2
    rw [← h2]
    exact hsig s0

/-- **C5 witness.** -/
theorem c5_generics_erased_witness :
    containsBareSig ["T"] (byeByeSig ["T"] ⟨"f", [("x", bareTy "T")], none⟩) = false := by
  have h := (c5_generics_erased ["T"] (bareTy "T") ⟨"f", [("x", bareTy "T")], none⟩
    (.fnItem [] ⟨"f", [("x", bareTy "T")], none⟩)).2.2
  exact h [] (byeByeSig ["T"] ⟨"f", [("x", bareTy "T")], none⟩) rfl


/-! ## Claim C9 -/

/-- **C9, counterexample.**  The claim says an unexported top-level
declaration in a module composition produces binding items only when a
*trailing* default-export statement references it.  The composer records the
default-export identifier whenever it appears and resolves it only after the
loop, so a default-export *preceding* the declaration lowers it just the
same: on `export default x;` followed by `declare let x: number;` the static
item is emitted although no trailing default-export exists. -/
theorem c9_counterexample :
    moduleAsBinding (.cons (.exportDefaultExpr (some "x"))
        (.cons (.stmtDecl (.varD [.identPat "x" false (.some (.kw .number))])) .nil)) none =
      some (.cons .useWasmBindgenPrelude
        (.cons (.foreignMod [.staticItem [.jsName "x"] "x" (primTy "f64")]) .nil)) ∧
    Items.cons .useWasmBindgenPrelude
        (.cons (.foreignMod [.staticItem [.jsName "x"] "x" (primTy "f64")]) .nil) ≠
      Items.nil := by
  constructor
  · simp [moduleAsBinding, moduleFold, moduleStep, dedupeItems, dedupeGo, dedupeFI,
      MState.init, lookupDecl, Items.append, declIdent, declToItems, patToPatType,
      tsTypeToType, tsTypeToTypeD, sanitizeSym, sanitizeCore, rustKeywords, freshName,
      freshFrom, dedupeCandidate, DedupeState.empty]
  · decide

/-- **C9, amended.**  In a module composition an unexported top-level
declaration alone produces no items at all; it is lowered when a
default-export statement anywhere in the unit references it by name; in a
namespace composition the same declaration is lowered unconditionally, as if
exported. -/
theorem c9_unexported_decl (d : DeclM) (n ns : String) (fis : List ForeignItemM) :
    (moduleAsBinding (.cons (.stmtDecl d) .nil) none = some .nil) ∧
    (declIdent d = some n → declToItems d = some fis →
        moduleAsBinding (.cons (.stmtDecl d)
            (.cons (.exportDefaultExpr (some n)) .nil)) none =
          some (if (dedupeItems fis).isEmpty then Items.nil
            else .cons .useWasmBindgenPrelude
              (.cons (.foreignMod (dedupeItems fis)) .nil))) ∧
    ((∀ m, d ≠ .tsModuleD m) → declToItems d = some fis →
        moduleAsBinding (.cons (.stmtDecl d) .nil) (some ns) =
          some (applyNsItems ns (if (dedupeItems fis).isEmpty then Items.nil
            else .cons .useSuperStar (.cons (.foreignMod (dedupeItems fis)) .nil)))) := by
  refine ⟨?_, ?_, ?_⟩
  · simp [moduleAsBinding, moduleFold, moduleStep, dedupeItems, dedupeGo,
      MState.init, Items.append]
  · intro h1 h2
    simp [moduleAsBinding, moduleFold, moduleStep, h1, h2, MState.init,
      lookupDecl, Items.append, List.find?]
  · intro hne h2
    match d with
    | .tsModuleD m => exact absurd rfl (hne m)
    | .classD c =>
        simp [moduleAsBinding, moduleFold, moduleStep, h2, MState.init, Items.append]
    | .fnD a f =>
        simp [moduleAsBinding, moduleFold, moduleStep, h2, MState.init, Items.append]
    | .varD ds =>
        simp [moduleAsBinding, moduleFold, moduleStep, h2, MState.init, Items.append]
    | .typeAliasD a tps ty =>
        simp [moduleAsBinding, moduleFold, moduleStep, h2, MState.init, Items.append]
    | .interfaceD a tps b =>
        simp [moduleAsBinding, moduleFold, moduleStep, h2, MState.init, Items.append]
    | .enumD a =>
        simp [moduleAsBinding, moduleFold, moduleStep, h2, MState.init, Items.append]

/-- **C9 witness.** -/
theorem c9_unexported_decl_witness :
    moduleAsBinding (.cons (.stmtDecl (.varD [.identPat "x" false (.some (.kw .number))]))
        (.cons (.exportDefaultExpr (some "x")) .nil)) none =
      some (if (dedupeItems [ForeignItemM.staticItem [.jsName "x"] "x" (primTy "f64")]).isEmpty
        then Items.nil
        else .cons .useWasmBindgenPrelude
          (.cons (.foreignMod (dedupeItems
            [ForeignItemM.staticItem [.jsName "x"] "x" (primTy "f64")])) .nil)) ∧
    moduleAsBinding (.cons (.stmtDecl (.fnD "g" ⟨[], [], .some (.kw .boolean)⟩)) .nil)
        (some "N") =
      some (applyNsItems "N"
        (if (dedupeItems [ForeignItemM.fnItem [] ⟨"g", [], some (primTy "bool")⟩]).isEmpty
          then Items.nil
          else .cons .useSuperStar
            (.cons (.foreignMod (dedupeItems
              [ForeignItemM.fnItem [] ⟨"g", [], some (primTy "bool")⟩])) .nil))) := by
  constructor
  · exact (c9_unexported_decl (.varD [.identPat "x" false (.some (.kw .number))]) "x" "N"
      [ForeignItemM.staticItem [.jsName "x"] "x" (primTy "f64")]).2.1 rfl rfl
  · exact (c9_unexported_decl (.fnD "g" ⟨[], [], .some (.kw .boolean)⟩) "g" "N"
      [ForeignItemM.fnItem [] ⟨"g", [], some (primTy "bool")⟩]).2.2
      (fun m h => by cases h) rfl


/-! ## Claim C4 -/

/-- The names of the renameable items of a list that the pass registers under
owner key `k`. -/
def namesUnder (k : Option Ty) (l : List ForeignItemM) : List String :=
  l.filterMap fun it =>
    match itemOwner? it, itemName? it with
    | some k', some nm => if k' = k then some nm else none
    | _, _ => none

theorem selfToClassTy_self (e : Ty) : selfToClassTy e e = e := by
  unfold selfToClassTy
  split <;> rfl

theorem selfToClassTy_cases (e t : Ty) :
    selfToClassTy e t = t ∨ selfToClassTy e t = e := by
  unfold selfToClassTy
  split
  · exact Or.inr rfl
  · exact Or.inl rfl

theorem selfToClassTy_idem (e t : Ty) :
    selfToClassTy e (selfToClassTy e t) = selfToClassTy e t := by
  rcases selfToClassTy_cases e t with h | h <;> rw [h]
  · exact h
  · exact selfToClassTy_self e

/-- `selfToClassSig` when the first parameter is a reference. -/
theorem selfToClassSig_of_head_ref (sig : FnSig) (n0 : String) (e : Ty)
    (rest : List (String × Ty)) (h : sig.inputs = (n0, .ref e) :: rest) :
    selfToClassSig sig =
      { sig with
        inputs := sig.inputs.map fun p => (p.1, selfToClassTy e p.2)
        output := sig.output.map (selfToClassTy e) } := by
  unfold selfToClassSig
  rw [h]

/-- `selfToClassSig` otherwise. -/
theorem selfToClassSig_of_no_ref (sig : FnSig)
    (h : ∀ n0 e rest, sig.inputs ≠ (n0, Ty.ref e) :: rest) :
    selfToClassSig sig = sig := by
  unfold selfToClassSig
  rcases hin : sig.inputs with _ | ⟨⟨n0, t0⟩, rest⟩
  · rfl
  · cases t0 with
    | ref e => exact absurd hin (h n0 e rest)
    | path lc segs => rfl
    | dynFn i => rfl
    | slice e => rfl
    | tup es => rfl
    | paren e => rfl

/-- Renaming an already-`Self`-resolved signature leaves it a fixed point of
`selfToClassSig`. -/
theorem selfToClassSig_rename_fixed (sig : FnSig) (f : String) :
    selfToClassSig ⟨f, (selfToClassSig sig).inputs, (selfToClassSig sig).output⟩ =
      ⟨f, (selfToClassSig sig).inputs, (selfToClassSig sig).output⟩ := by
  rcases hin : sig.inputs with _ | ⟨⟨n0, t0⟩, rest⟩
  · have hno : ∀ n1 e1 r1, sig.inputs ≠ (n1, Ty.ref e1) :: r1 := by
      rw [hin]; intro _ _ _ hcon; cases hcon
    have h1 := selfToClassSig_of_no_ref sig hno
    rw [h1]
    exact selfToClassSig_of_no_ref _ hno
  · cases t0 with
    | ref e =>
      have h1 := selfToClassSig_of_head_ref sig n0 e rest hin
      have hin2 : (FnSig.mk f (selfToClassSig sig).inputs
          (selfToClassSig sig).output).inputs =
          (n0, Ty.ref e) :: (rest.map fun p => (p.1, selfToClassTy e p.2)) := by
        show (selfToClassSig sig).inputs = _
        rw [h1]
        show (sig.inputs.map fun p => (p.1, selfToClassTy e p.2)) = _
        rw [hin]
        rfl
      have h2 := selfToClassSig_of_head_ref _ n0 e _ hin2
      rw [h2]
      have hmap : ∀ l : List (String × Ty),
          ((l.map fun p => (p.1, selfToClassTy e p.2)).map
            fun p => (p.1, selfToClassTy e p.2)) =
          l.map fun p => (p.1, selfToClassTy e p.2) := by
        intro l
        induction l with
        | nil => rfl
        | cons p r ihp =>
          simp only [List.map_cons, ihp, List.cons.injEq, and_true]
          rw [selfToClassTy_idem]
      have hout : ∀ o : Option Ty,
          (o.map (selfToClassTy e)).map (selfToClassTy e) =
            o.map (selfToClassTy e) := by
        intro o
        match o with
        | none => rfl
        | some u =>
          show some (selfToClassTy e (selfToClassTy e u)) = _
          rw [selfToClassTy_idem]
          rfl
      show FnSig.mk _ _ _ = FnSig.mk _ _ _
      rw [FnSig.mk.injEq]
      refine ⟨rfl, ?_, ?_⟩
      · show ((selfToClassSig sig).inputs.map fun p => (p.1, selfToClassTy e p.2)) =
          (selfToClassSig sig).inputs
        rw [h1]
        exact hmap sig.inputs
      · show ((selfToClassSig sig).output.map (selfToClassTy e)) =
          (selfToClassSig sig).output
        rw [h1]
        exact hout sig.output
    | path lc segs =>
      have hno : ∀ n1 e1 r1, sig.inputs ≠ (n1, Ty.ref e1) :: r1 := by
        rw [hin]; intro _ _ _ hcon
        injection hcon with hh _
        injection hh with _ hb
        cases hb
      have h1 := selfToClassSig_of_no_ref sig hno
      rw [h1]
      exact selfToClassSig_of_no_ref _ hno
    | dynFn i =>
      have hno : ∀ n1 e1 r1, sig.inputs ≠ (n1, Ty.ref e1) :: r1 := by
        rw [hin]; intro _ _ _ hcon
        injection hcon with hh _
        injection hh with _ hb
        cases hb
      have h1 := selfToClassSig_of_no_ref sig hno
      rw [h1]
      exact selfToClassSig_of_no_ref _ hno
    | slice e =>
      have hno : ∀ n1 e1 r1, sig.inputs ≠ (n1, Ty.ref e1) :: r1 := by
        rw [hin]; intro _ _ _ hcon
        injection hcon with hh _
        injection hh with _ hb
        cases hb
      have h1 := selfToClassSig_of_no_ref sig hno
      rw [h1]
      exact selfToClassSig_of_no_ref _ hno
    | tup es =>
      have hno : ∀ n1 e1 r1, sig.inputs ≠ (n1, Ty.ref e1) :: r1 := by
        rw [hin]; intro _ _ _ hcon
        injection hcon with hh _
        injection hh with _ hb
        cases hb
      have h1 := selfToClassSig_of_no_ref sig hno
      rw [h1]
      exact selfToClassSig_of_no_ref _ hno
    | paren e =>
      have hno : ∀ n1 e1 r1, sig.inputs ≠ (n1, Ty.ref e1) :: r1 := by
        rw [hin]; intro _ _ _ hcon
        injection hcon with hh _
        injection hh with _ hb
        cases hb
      have h1 := selfToClassSig_of_no_ref sig hno
      rw [h1]
      exact selfToClassSig_of_no_ref _ hno

/-- The owner key of a renamed function item is the one the pass registered
it under. -/
theorem itemOwner_dedupeFI_fn (st : DedupeState) (attrs : List WAttr) (sig : FnSig) :
    itemOwner? ((dedupeFI st (.fnItem attrs sig)).2) =
      some (methodOf attrs (selfToClassSig sig)) := by
  show some (methodOf attrs (selfToClassSig
    ⟨freshName (st (methodOf attrs (selfToClassSig sig))) (selfToClassSig sig).ident,
     (selfToClassSig sig).inputs, (selfToClassSig sig).output⟩)) = _
  rw [selfToClassSig_rename_fixed]
  rfl


theorem namesUnder_cons_type (k : Option Ty) (a : List WAttr) (n : String)
    (rest : List ForeignItemM) :
    namesUnder k (.typeItem a n :: rest) = namesUnder k rest := by
  simp [namesUnder, List.filterMap_cons, itemOwner?]

theorem namesUnder_cons_static (k : Option Ty) (a : List WAttr) (n : String)
    (ty : Ty) (rest : List ForeignItemM) :
    namesUnder k (.staticItem a n ty :: rest) =
      if (none : Option Ty) = k then n :: namesUnder k rest
      else namesUnder k rest := by
  by_cases h : (none : Option Ty) = k <;>
    simp [namesUnder, List.filterMap_cons, itemOwner?, itemName?, h]

theorem namesUnder_cons_fn_renamed (k : Option Ty) (a : List WAttr) (sig : FnSig)
    (f : String) (rest : List ForeignItemM) :
    namesUnder k (.fnItem a
        ⟨f, (selfToClassSig sig).inputs, (selfToClassSig sig).output⟩ :: rest) =
      if methodOf a (selfToClassSig sig) = k then f :: namesUnder k rest
      else namesUnder k rest := by
  have ho : itemOwner? (.fnItem a
      ⟨f, (selfToClassSig sig).inputs, (selfToClassSig sig).output⟩) =
      some (methodOf a (selfToClassSig sig)) := by
    show some (methodOf a (selfToClassSig ⟨f, _, _⟩)) = _
    rw [selfToClassSig_rename_fixed]
    rfl
  by_cases h : methodOf a (selfToClassSig sig) = k <;>
    simp [namesUnder, List.filterMap_cons, ho, itemName?, h]

/-- The collision-resolution invariant: starting from any registry, the names
the pass emits under one owner key are pairwise distinct and none of them was
already registered. -/
theorem dedupe_nodup_aux (k : Option Ty) :
    ∀ (l : List ForeignItemM) (st : DedupeState),
      (namesUnder k (dedupeGo st l)).Nodup ∧
      ∀ nm ∈ namesUnder k (dedupeGo st l), nm ∉ st k := by
  intro l
  induction l with
  | nil =>
    intro st
    exact ⟨List.nodup_nil, by intro nm hnm; simp [dedupeGo, namesUnder] at hnm⟩
  | cons fi rest ih =>
    intro st
    match fi with
    | .typeItem a n0 =>
      have hgo : dedupeGo st (ForeignItemM.typeItem a n0 :: rest) =
          .typeItem a n0 :: dedupeGo st rest := rfl
      rw [hgo, namesUnder_cons_type]
      exact ih st
    | .staticItem a n0 ty =>
      have hgo : dedupeGo st (ForeignItemM.staticItem a n0 ty :: rest) =
          .staticItem a (freshName (st none) n0) ty ::
            dedupeGo
              (fun k' => if k' = none then freshName (st none) n0 :: st none else st k')
              rest := rfl
      rw [hgo, namesUnder_cons_static]
      have hih := ih
        (fun k' => if k' = none then freshName (st none) n0 :: st none else st k')
      by_cases hk : (none : Option Ty) = k
      · rw [if_pos hk]
        have hstk :
            (if k = none then freshName (st none) n0 :: st none else st k) =
              freshName (st none) n0 :: st k := by
          rw [← hk]
          simp
        constructor
        · refine List.nodup_cons.mpr ⟨?_, hih.1⟩
          intro hmemf
          have hni := hih.2 _ hmemf
          rw [hstk] at hni
          exact hni (List.mem_cons_self _ _)
        · intro nm hnm
          rcases List.mem_cons.mp hnm with rfl | hnm'
          · rw [← hk]
            exact freshName_not_mem (st none) n0
          · have hni := hih.2 nm hnm'
            rw [hstk] at hni
            intro hc
            exact hni (List.mem_cons_of_mem _ hc)
      · rw [if_neg hk]
        have hstk :
            (if k = none then freshName (st none) n0 :: st none else st k) = st k := by
          rw [if_neg (fun hc => hk hc.symm)]
        constructor
        · exact hih.1
        · intro nm hnm
          have hni := hih.2 nm hnm
          rwa [hstk] at hni
    | .fnItem a sig =>
      have hgo : dedupeGo st (ForeignItemM.fnItem a sig :: rest) =
          .fnItem a
            ⟨freshName (st (methodOf a (selfToClassSig sig))) (selfToClassSig sig).ident,
             (selfToClassSig sig).inputs, (selfToClassSig sig).output⟩ ::
            dedupeGo
              (fun k' => if k' = methodOf a (selfToClassSig sig) then
                  freshName (st (methodOf a (selfToClassSig sig)))
                    (selfToClassSig sig).ident ::
                    st (methodOf a (selfToClassSig sig))
                else st k')
              rest := rfl
      rw [hgo, namesUnder_cons_fn_renamed]
      have hih := ih
        (fun k' => if k' = methodOf a (selfToClassSig sig) then
            freshName (st (methodOf a (selfToClassSig sig))) (selfToClassSig sig).ident ::
              st (methodOf a (selfToClassSig sig))
          else st k')
      by_cases hk : methodOf a (selfToClassSig sig) = k
      · rw [if_pos hk]
        have hstk :
            (if k = methodOf a (selfToClassSig sig) then
                freshName (st (methodOf a (selfToClassSig sig)))
                  (selfToClassSig sig).ident ::
                  st (methodOf a (selfToClassSig sig))
              else st k) =
              freshName (st (methodOf a (selfToClassSig sig)))
                (selfToClassSig sig).ident ::
                st (methodOf a (selfToClassSig sig)) := by
          rw [← hk]
          simp
        constructor
        · refine List.nodup_cons.mpr ⟨?_, hih.1⟩
          intro hmemf
          have hni := hih.2 _ hmemf
          rw [hstk] at hni
          exact hni (List.mem_cons_self _ _)
        · intro nm hnm
          rcases List.mem_cons.mp hnm with rfl | hnm'
          · rw [← hk]
            exact freshName_not_mem _ _
          · have hni := hih.2 nm hnm'
            rw [hstk] at hni
            intro hc
            rw [← hk] at hc
            exact hni (List.mem_cons_of_mem _ hc)
      · rw [if_neg hk]
        have hstk :
            (if k = methodOf a (selfToClassSig sig) then
                freshName (st (methodOf a (selfToClassSig sig)))
                  (selfToClassSig sig).ident ::
                  st (methodOf a (selfToClassSig sig))
              else st k) = st k := by
          rw [if_neg (fun hc => hk hc.symm)]
        constructor
        · exact hih.1
        · intro nm hnm
          have hni := hih.2 nm hnm
          rwa [hstk] at hni

/-- The registered-name stack after `m` same-named insertions under one
owner. -/
def candList (b : String) : Nat → List String
  | 0 => []
  | m + 1 => dedupeCandidate b m :: candList b m

theorem length_candList (b : String) (m : Nat) : (candList b m).length = m := by
  induction m with
  | zero => rfl
  | succ mm ih => simp [candList, ih]

theorem mem_candList (b : String) (m j : Nat) :
    dedupeCandidate b j ∈ candList b m ↔ j < m := by
  induction m with
  | zero => simp [candList]
  | succ mm ih =>
    simp only [candList, List.mem_cons]
    constructor
    · rintro (h | h)
      · have := dedupeCandidate_injective b h
        omega
      · have := ih.mp h
        omega
    · intro h
      rcases Nat.lt_succ_iff_lt_or_eq.mp h with h' | rfl
      · exact Or.inr (ih.mpr h')
      · exact Or.inl rfl

theorem freshName_candList (b : String) (m : Nat) :
    freshName (candList b m) b = dedupeCandidate b m := by
  unfold freshName
  rw [length_candList]
  exact freshFrom_exact (candList b m) b (m + 1) 0 m (by omega) (by omega)
    (fun j _ hj2 => (mem_candList b m j).mpr hj2)
    (fun hc => by have := (mem_candList b m m).mp hc; omega)

/-- Processing `cnt` same-named statics starting after `m` earlier insertions
yields the candidates `m, m+1, ...` in order. -/
theorem dedupe_replicate (a : List WAttr) (b : String) (ty : Ty) :
    ∀ (cnt m : Nat) (st : DedupeState), st none = candList b m →
      (dedupeGo st (List.replicate cnt (.staticItem a b ty))).map itemName? =
        (List.range' m cnt).map fun i => some (dedupeCandidate b i) := by
  intro cnt
  induction cnt with
  | zero => intro m st h; rfl
  | succ c ih =>
    intro m st h
    rw [List.replicate_succ]
    have hgo : dedupeGo st (ForeignItemM.staticItem a b ty ::
          List.replicate c (ForeignItemM.staticItem a b ty)) =
        .staticItem a (freshName (st none) b) ty ::
          dedupeGo (fun k' => if k' = none then freshName (st none) b :: st none else st k')
            (List.replicate c (ForeignItemM.staticItem a b ty)) := rfl
    rw [hgo, List.map_cons]
    have hf : freshName (st none) b = dedupeCandidate b m := by
      rw [h]
      exact freshName_candList b m
    have hst' :
        (fun k' => if k' = none then freshName (st none) b :: st none else st k') none =
          candList b (m + 1) := by
      simp [h, candList, freshName_candList]
    rw [ih (m + 1) _ hst', hf, List.range'_succ, List.map_cons]
    rfl

/-- **C4.**  After collision resolution over one composed block:
(1) the sanitized names registered under one owner key are pairwise distinct;
(2) `N` items sharing a raw name under one owner come out as the unsuffixed
base name followed by `base_1 … base_{N-1}` in encounter order; and (3) a name
not yet registered under its owner is never renamed. -/
theorem c4_collision_resolution (l : List ForeignItemM) (k : Option Ty)
    (cnt : Nat) (a : List WAttr) (b : String) (ty : Ty) (taken : List String) :
    (namesUnder k (dedupeItems l)).Nodup ∧
    ((dedupeItems (List.replicate cnt (.staticItem a b ty))).map itemName? =
      (List.range cnt).map fun i => some (dedupeCandidate b i)) ∧
    (b ∉ taken → freshName taken b = b) := by
  refine ⟨(dedupe_nodup_aux k l DedupeState.empty).1, ?_,
    freshName_of_not_mem taken b⟩
  have h := dedupe_replicate a b ty cnt 0 DedupeState.empty rfl
  rw [List.range_eq_range']
  exact h

/-- **C4 witness.** -/
theorem c4_collision_resolution_witness :
    freshName ["g"] "f" = "f" :=
  (c4_collision_resolution [] none 0 [] "f" jsValue ["g"]).2.2 (by decide)

end WBTD
